import Mathlib

/-!
# Statping service analytics (`database/service.go`)

A shallow embedding of the availability computation and the failure classifier of
`database/service.go`, followed by theorems about them.

Conventions of the embedding.

* Go `float64` / `float32` values are the rationals they denote.  Every arithmetic
  operation, conversion and parse rounds its exact result to the nearest value with a
  53-bit (resp. 24-bit) significand, ties to even (`roundNE`).  The exponent is not
  bounded: the quantities computed here are `0` or lie between `2^-63` and `2^70`, far
  from the overflow and subnormal ranges of both formats.  A quotient whose divisor is
  zero is not a finite number; it is represented by `none`.
* Go strings are Lean strings; `strings.Contains` is containment of the character
  sequence.  For well-formed UTF-8 text and the ASCII patterns used by the classifier this
  is the same as containment of the byte sequence.
* Instants (`time.Time`) are integers: nanoseconds since the epoch, in UTC.
  `time.Now()` is a parameter `now`.
* Durations (`time.Duration`) are integers: nanoseconds.  The product of durations in
  `OnlineDaysPercent` wraps around in 64 bits (`wrapInt64`); `Time.Sub` saturates.
* A method with a pointer receiver that assigns to the record takes the record and
  returns the updated one.
* A run-time panic (an index out of range) is `none`.
-/

namespace Statping

/-! ## Floating point numbers -/

/-- Nearest integer to `x`, a tie going to the even neighbour. -/
def roundHalfEven (x : ℚ) : ℤ :=
  let f := ⌊x⌋
  let r := x - f
  if r < 1 / 2 then f
  else if 1 / 2 < r then f + 1
  else if f % 2 = 0 then f else f + 1

/-- Round `x` to the nearest number with a `p`-bit significand, ties to even
(IEEE 754 `roundTiesToEven`, exponent range unbounded). -/
def roundNE (p : ℕ) (x : ℚ) : ℚ :=
  if x = 0 then 0
  else
    let e : ℤ := Int.log 2 |x| - ((p : ℤ) - 1)
    (roundHalfEven (x / (2 : ℚ) ^ e) : ℚ) * (2 : ℚ) ^ e

/-- Conversion to `float64`, and the rounding applied by every `float64` operation. -/
def float64 (x : ℚ) : ℚ := roundNE 53 x

/-- Conversion to `float32`. -/
def float32 (x : ℚ) : ℚ := roundNE 24 x

/-- Quotient `a / b` of two `float64` values; `none` when the divisor is zero (the
result is then an infinity or a NaN). -/
def f64Div (a b : ℚ) : Option ℚ :=
  if b = 0 then none else some (float64 (a / b))

/-- Product `a * b` of two `float64` values. -/
def f64Mul (a b : ℚ) : ℚ := float64 (a * b)

/-- Difference `a - b` of two `float64` values. -/
def f64Sub (a b : ℚ) : ℚ := float64 (a - b)

/-- `fmt.Sprintf("%0.2f", x)`: the decimal numeral with two fractional digits nearest to
the exact value of `x`, ties to even; represented by the number the numeral denotes. -/
def Sprintf02f (x : ℚ) : ℚ := (roundHalfEven (x * 100) : ℚ) / 100

/-- `strconv.ParseFloat(s, 10)`: a bit size other than 32 parses as `float64`, the
nearest `float64` to the decimal numeral. -/
def ParseFloat (d : ℚ) : ℚ := float64 d

/-! ## Strings -/

/-- Does the character sequence `sub` occur as a contiguous block of `s`? -/
def containsChars : List Char → List Char → Bool
  | [], sub => sub.isEmpty
  | c :: cs, sub => sub.isPrefixOf (c :: cs) || containsChars cs sub

/-- `strings.Contains(s, substr)`. -/
def Contains (s substr : String) : Bool := containsChars s.data substr.data

/-! ## Records -/

/-- Modelled from the spec: `types.Failure`, one failed probe or missed checkin of a
service (service identifier, timestamp, method tag, diagnostic text). -/
structure Failure where
  Issue : String
  Method : String
  Service : Int
  CreatedAt : Int
deriving DecidableEq, Repr

/-- Modelled from the spec: `types.Hit`, one successful probe of a service (service
identifier, timestamp, measured latency). -/
structure Hit where
  Service : Int
  Latency : ℚ
  CreatedAt : Int
deriving DecidableEq, Repr

/-- Modelled from the spec: `types.Stats`, the stats block of a service (cumulative
failure count, cumulative hit count). -/
structure Stats where
  Failures : Int
  Hits : Int
deriving DecidableEq, Repr

/-- Modelled from the spec: the fields of `types.Service` that `service.go` reads or
writes. -/
structure Service where
  Id : Int
  Online24Hours : ℚ
  Online7Days : ℚ
  AvgResponse : ℚ
  FailuresLast24Hours : Int
  Stats : Option Stats
deriving DecidableEq, Repr

/-- Modelled from the spec: the Data Store, holding every recorded failure and hit. -/
structure Database where
  failures : List Failure
  hits : List Hit
deriving DecidableEq, Repr

/-! ## Data Store queries -/

/-- Insert `x` into a list ordered by decreasing `key`, in front of the entries that are
not more recent. -/
def insertRecent {α : Type} (key : α → Int) (x : α) : List α → List α
  | [] => [x]
  | y :: ys => if key y ≤ key x then x :: y :: ys else y :: insertRecent key x ys

/-- Rows ordered from the most recent to the oldest; of two rows with the same timestamp
the one recorded later comes first. -/
def recentFirst {α : Type} (key : α → Int) (rows : List α) : List α :=
  rows.foldl (fun acc x => insertRecent key x acc) []

/-- Modelled from the spec: `FailureObj.Since`, the failures of the query scope with
timestamp ≥ `ago`. -/
def FailureObj.Since (rows : List Failure) (ago : Int) : List Failure :=
  rows.filter (fun f => decide (ago ≤ f.CreatedAt))

/-- Modelled from the spec: `FailureObj.Last`, the `n` most recent failures of the query
scope, most recent first. -/
def FailureObj.Last (rows : List Failure) (n : Nat) : List Failure :=
  (recentFirst Failure.CreatedAt rows).take n

/-- Modelled from the spec: `FailureObj.Count`, the number of failures of the query
scope. -/
def FailureObj.Count (rows : List Failure) : Int := rows.length

/-- Modelled from the spec: `HitObj.Since`, the hits of the query scope with
timestamp ≥ `ago`. -/
def HitObj.Since (rows : List Hit) (ago : Int) : List Hit :=
  rows.filter (fun h => decide (ago ≤ h.CreatedAt))

/-- Modelled from the spec: `HitObj.Last`, the `n` most recent hits of the query scope,
most recent first. -/
def HitObj.Last (rows : List Hit) (n : Nat) : List Hit :=
  (recentFirst Hit.CreatedAt rows).take n

/-- Modelled from the spec: `HitObj.Count`, the number of hits of the query scope. -/
def HitObj.Count (rows : List Hit) : Int := rows.length

/-- Modelled from the spec: `HitObj.Sum`, the single aggregate latency figure the Data
Store returns for the query scope, taken here as the `float64` sum of the recorded
latencies; no windowing is applied. -/
def HitObj.Sum (rows : List Hit) : ℚ := float64 (rows.map Hit.Latency).sum

/-! ## `service.go` -/

/-- `ServiceObj.Hits`: the query `service = ?` on the hits. -/
def Hits (db : Database) (s : Service) : List Hit :=
  db.hits.filter (fun h => decide (h.Service = s.Id))

/-- `ServiceObj.Failures`: the query `method != 'checkin' AND service = ?` on the
failures. -/
def Failures (db : Database) (s : Service) : List Failure :=
  db.failures.filter (fun f => decide (f.Method ≠ "checkin") && decide (f.Service = s.Id))

/-- `parseError` returns a human readable error for a failure. -/
def parseError (f : Failure) : String :=
  if f.Method = "checkin" then "Checkin is Offline"
  else if Contains f.Issue "connection reset by peer" then "Connection Reset"
  else if Contains f.Issue "operation timed out" then "HTTP Request Timed Out"
  else if Contains f.Issue "x509: certificate is valid" then "SSL Certificate invalid"
  else if Contains f.Issue "Client.Timeout exceeded while awaiting headers" then
    "Connection Timed Out"
  else if Contains f.Issue "no such host" then "Domain is offline or not found"
  else if Contains f.Issue "HTTP Status Code" then "Incorrect HTTP Status Code"
  else if Contains f.Issue "connection refused" then "Connection Failed"
  else if Contains f.Issue "can't assign requested address" then "Unable to Request Address"
  else if Contains f.Issue "no route to host" then "Domain is offline or not found"
  else if Contains f.Issue "i/o timeout" then "Connection Timed Out"
  else if Contains f.Issue "Client.Timeout exceeded while reading body" then
    "Timed Out on Response Body"
  else f.Issue

/-- `ServiceObj.DowntimeText`. -/
def DowntimeText (db : Database) (s : Service) : String :=
  match FailureObj.Last (Failures db s) 1 with
  | [] => ""
  | f :: _ => parseError f

/-- `ServiceObj.AvgTime`: the average amount of time for a service to respond. -/
def AvgTime (db : Database) (s : Service) : ℚ := HitObj.Sum (Hits db s)

/-- `ServiceObj.OnlineSince`: the percent of a service's uptime since `ago`.  Returns the
percentage together with the record, whose `Online24Hours` the method assigns. -/
def OnlineSince (db : Database) (s : Service) (ago : Int) : Option (ℚ × Service) :=
  let failed := FailureObj.Since (Failures db s) ago
  if failed.length = 0 then
    let s := { s with Online24Hours := 100 }
    some (s.Online24Hours, s)
  else
    let total := HitObj.Since (Hits db s) ago
    if total.length = 0 then
      let s := { s with Online24Hours := 0 }
      some (s.Online24Hours, s)
    else
      (f64Div (float64 failed.length) (float64 total.length)).map fun q =>
        let avg := f64Mul q 100
        let avg := f64Sub 100 avg
        let avg := if avg < 0 then 0 else avg
        let amount := ParseFloat (Sprintf02f avg)
        let s := { s with Online24Hours := float32 amount }
        (s.Online24Hours, s)

/-- Two's complement wrap-around of a 64-bit signed integer. -/
def wrapInt64 (x : Int) : Int := (x + 2 ^ 63) % 2 ^ 64 - 2 ^ 63

/-- `time.Hour`, in nanoseconds. -/
def Hour : Int := 3600000000000

/-- `ServiceObj.OnlineDaysPercent`: the uptime percent within the last `days` days. -/
def OnlineDaysPercent (db : Database) (now : Int) (s : Service) (days : Int) :
    Option (ℚ × Service) :=
  let ago := now + wrapInt64 (wrapInt64 (-24 * days) * Hour)
  OnlineSince db s ago

/-- `ServiceObj.UpdateStats`. -/
def UpdateStats (db : Database) (now : Int) (s : Service) : Option Service :=
  (OnlineDaysPercent db now s 1).bind fun r =>
    let s := { r.2 with Online24Hours := r.1 }
    (OnlineDaysPercent db now s 7).map fun r =>
      let s := { r.2 with Online7Days := r.1 }
      let s := { s with AvgResponse := AvgTime db s }
      let s := { s with
        FailuresLast24Hours :=
          (FailureObj.Since (Failures db s) (now + wrapInt64 (-Hour * 24))).length }
      { s with
        Stats := some { Failures := FailureObj.Count (Failures db s),
                        Hits := HitObj.Count (Hits db s) } }

/-- `Time.Sub`: the duration `t - u` in nanoseconds.  A difference that does not fit a
`Duration` (a signed 64-bit count) is replaced by the largest or smallest duration. -/
def Time.Sub (t u : Int) : Int :=
  if t - u < -(2 ^ 63) then -(2 ^ 63)
  else if 2 ^ 63 - 1 < t - u then 2 ^ 63 - 1
  else t - u

/-- `ServiceObj.Downtime`: the amount of time of an offline service.  An index
expression on a slice that has no such element panics at run time; the panic is `none`. -/
def Downtime (db : Database) (now : Int) (s : Service) : Option Int :=
  let hits := HitObj.Last (Hits db s) 1
  let fail := FailureObj.Last (Failures db s) 1
  if fail.length = 0 then some 0
  else if fail.length = 0 then
    fail[0]?.map fun f => Time.Sub now f.CreatedAt
  else
    fail[0]?.bind fun f =>
      hits[0]?.map fun h => Time.Sub f.CreatedAt h.CreatedAt

/-! ## Reference definitions taken from the specification -/

/-- The `float64` value of the expression `100 - (f / h) * 100` for `f` failures and `h`
hits. -/
def avgOf (f h : ℕ) : ℚ :=
  f64Sub 100 (f64Mul (float64 (float64 f / float64 h)) 100)

/-- The percentage stored for the `float64` value `avg`: formatted with two fractional
digits, parsed, converted to `float32`. -/
def stored (avg : ℚ) : ℚ := float32 (ParseFloat (Sprintf02f avg))

/-- The specification's formula for a window with `f` failures and `h` hits,
`round(100 − f/h×100, 2)`: the expression evaluated in `float64` arithmetic and rounded
to two decimals, with no guard and no floor. -/
def uptimeFormula (f h : ℕ) : ℚ := stored (avgOf f h)

/-- The uptime percentage as a function of the number `f` of failures and the number `h`
of hits in the window: 100 without failures, 0 with failures and no hit, and otherwise
the stored percentage of `100 - (f / h) * 100` floored at 0. -/
def uptimeOf (f h : ℕ) : ℚ :=
  if f = 0 then 100
  else if h = 0 then 0
  else stored (if avgOf f h < 0 then 0 else avgOf f h)

/-- The specification's ordered table of (substring pattern, label) pairs. -/
def classifierTable : List (String × String) :=
  [("connection reset by peer", "Connection Reset"),
   ("operation timed out", "HTTP Request Timed Out"),
   ("x509: certificate is valid", "SSL Certificate invalid"),
   ("Client.Timeout exceeded while awaiting headers", "Connection Timed Out"),
   ("no such host", "Domain is offline or not found"),
   ("HTTP Status Code", "Incorrect HTTP Status Code"),
   ("connection refused", "Connection Failed"),
   ("can't assign requested address", "Unable to Request Address"),
   ("no route to host", "Domain is offline or not found"),
   ("i/o timeout", "Connection Timed Out"),
   ("Client.Timeout exceeded while reading body", "Timed Out on Response Body")]

/-- `pattern` is a substring of `text`. -/
def IsSubstring (pattern text : String) : Prop := pattern.data <:+: text.data

instance (pattern text : String) : Decidable (IsSubstring pattern text) :=
  inferInstanceAs (Decidable (pattern.data <:+: text.data))

/-- First-match lookup: the label of the first entry of `table` whose pattern is a
substring of `text`, and `text` itself when no pattern is. -/
def firstMatch (table : List (String × String)) (text : String) : String :=
  match table.find? (fun e => decide (IsSubstring e.1 text)) with
  | some e => e.2
  | none => text

/-! ## Sample records -/

/-- A service with identifier 1 whose derived fields are all zero. -/
def sampleService : Service :=
  { Id := 1, Online24Hours := 0, Online7Days := 0, AvgResponse := 0,
    FailuresLast24Hours := 0, Stats := none }

/-- A store with `nf` probe failures and `nh` hits of service 1, all recorded at
instant 10. -/
def sampleDb (nf nh : ℕ) : Database :=
  { failures := List.replicate nf
      { Issue := "connection refused", Method := "http", Service := 1, CreatedAt := 10 },
    hits := List.replicate nh { Service := 1, Latency := 1 / 4, CreatedAt := 10 } }

/-- One day, in nanoseconds. -/
def Day : Int := 24 * Hour

/-- A store for service 1 with one probe failure two days before instant `7 * Day` and
two hits within the last day before it. -/
def staleFailureDb : Database :=
  { failures :=
      [{ Issue := "connection refused", Method := "http", Service := 1, CreatedAt := 5 * Day }],
    hits := [{ Service := 1, Latency := 1 / 4, CreatedAt := 6 * Day + 1 },
             { Service := 1, Latency := 1 / 4, CreatedAt := 6 * Day + 2 }] }

/-- A store with two probe failures of service 1 (instants 3 and 5), a later missed
checkin of service 1 (instant 9) and a later probe failure of service 2 (instant 8). -/
def mixedDb : Database :=
  { failures :=
      [{ Issue := "dial tcp: no such host", Method := "http", Service := 1, CreatedAt := 5 },
       { Issue := "connection refused", Method := "http", Service := 1, CreatedAt := 3 },
       { Issue := "", Method := "checkin", Service := 1, CreatedAt := 9 },
       { Issue := "i/o timeout", Method := "tcp", Service := 2, CreatedAt := 8 }],
    hits := [] }

/-- A store for service 1 with a probe failure at instant 5 and a later hit at
instant 9: the service has recovered. -/
def recoveredDb : Database :=
  { failures :=
      [{ Issue := "connection refused", Method := "http", Service := 1, CreatedAt := 5 }],
    hits := [{ Service := 1, Latency := 1 / 4, CreatedAt := 9 }] }

/-- A store for service 1 with hits at instants 3 and 5 followed by probe failures at
instants 7 and 8: the service is offline. -/
def outageDb : Database :=
  { failures :=
      [{ Issue := "connection refused", Method := "http", Service := 1, CreatedAt := 7 },
       { Issue := "i/o timeout", Method := "http", Service := 1, CreatedAt := 8 }],
    hits := [{ Service := 1, Latency := 1 / 4, CreatedAt := 3 },
             { Service := 1, Latency := 1 / 4, CreatedAt := 5 }] }

/-! # Theorems -/

/-! ## Rounding to the nearest integer -/

theorem roundHalfEven_ge_floor (x : ℚ) : ⌊x⌋ ≤ roundHalfEven x := by
  unfold roundHalfEven
  dsimp only
  split_ifs <;> omega

theorem roundHalfEven_le_floor_add_one (x : ℚ) : roundHalfEven x ≤ ⌊x⌋ + 1 := by
  unfold roundHalfEven
  dsimp only
  split_ifs <;> omega

theorem roundHalfEven_intCast (n : ℤ) : roundHalfEven (n : ℚ) = n := by
  unfold roundHalfEven
  simp

theorem roundHalfEven_mono {x y : ℚ} (h : x ≤ y) : roundHalfEven x ≤ roundHalfEven y := by
  rcases (Int.floor_mono h).lt_or_eq with hlt | heq
  · calc roundHalfEven x ≤ ⌊x⌋ + 1 := roundHalfEven_le_floor_add_one x
      _ ≤ ⌊y⌋ := hlt
      _ ≤ roundHalfEven y := roundHalfEven_ge_floor y
  · unfold roundHalfEven
    dsimp only
    rw [← heq]
    split_ifs <;> first | omega | (exfalso; linarith)

theorem roundHalfEven_neg (x : ℚ) : roundHalfEven (-x) = -roundHalfEven x := by
  by_cases hx : (⌊x⌋ : ℚ) = x
  · rw [← hx, ← Int.cast_neg, roundHalfEven_intCast, roundHalfEven_intCast]
  · have hlt : (⌊x⌋ : ℚ) < x := lt_of_le_of_ne (Int.floor_le x) hx
    have hfl : ⌊-x⌋ = -⌊x⌋ - 1 := by
      rw [Int.floor_eq_iff]
      have := Int.lt_floor_add_one x
      push_cast
      constructor <;> linarith
    unfold roundHalfEven
    dsimp only
    rw [hfl]
    push_cast
    split_ifs <;> first | omega | (exfalso; linarith)

theorem abs_sub_roundHalfEven_le (x : ℚ) : |x - roundHalfEven x| ≤ 1 / 2 := by
  have h1 := Int.floor_le x
  have h2 := Int.lt_floor_add_one x
  unfold roundHalfEven
  dsimp only
  rw [abs_le]
  split_ifs <;> push_cast <;> constructor <;> linarith

/-! ## Rounding to a `p`-bit significand -/

theorem roundNE_zero (p : ℕ) : roundNE p 0 = 0 := by
  simp [roundNE]

theorem roundNE_neg (p : ℕ) (x : ℚ) : roundNE p (-x) = -roundNE p x := by
  unfold roundNE
  by_cases hx : x = 0
  · simp [hx]
  · have hx' : -x ≠ 0 := neg_ne_zero.mpr hx
    simp only [hx, hx', if_false, abs_neg, neg_div, roundHalfEven_neg, Int.cast_neg, neg_mul]

theorem two_zpow_log_le {x : ℚ} (hx : 0 < x) : (2 : ℚ) ^ Int.log 2 x ≤ x := by
  have := Int.zpow_log_le_self (b := 2) (by norm_num) hx
  simpa using this

theorem lt_two_zpow_log_succ (x : ℚ) : x < (2 : ℚ) ^ (Int.log 2 x + 1) := by
  have := Int.lt_zpow_succ_log_self (b := 2) (by norm_num) x
  simpa using this

theorem log_two_eq {x : ℚ} {k : ℤ} (h1 : (2 : ℚ) ^ k ≤ x) (h2 : x < (2 : ℚ) ^ (k + 1)) :
    Int.log 2 x = k := by
  have hx : 0 < x := lt_of_lt_of_le (by positivity) h1
  have hb : 1 < (2 : ℕ) := by norm_num
  have a1 : k ≤ Int.log 2 x := by
    rw [← Int.zpow_le_iff_le_log hb hx]
    simpa using h1
  have a2 : Int.log 2 x < k + 1 := by
    rw [← Int.lt_zpow_iff_log_lt hb hx]
    simpa using h2
  omega

/-- For positive `x` the rounded value is the rounded significand times the unit in the
last place of the binade of `x`. -/
theorem roundNE_of_pos (p : ℕ) {x : ℚ} (hx : 0 < x) :
    roundNE p x =
      (roundHalfEven (x / (2 : ℚ) ^ (Int.log 2 x - ((p : ℤ) - 1))) : ℚ) *
        (2 : ℚ) ^ (Int.log 2 x - ((p : ℤ) - 1)) := by
  unfold roundNE
  rw [if_neg hx.ne', abs_of_pos hx]

theorem two_zpow_log_le_roundNE {p : ℕ} (hp : 1 ≤ p) {x : ℚ} (hx : 0 < x) :
    (2 : ℚ) ^ Int.log 2 x ≤ roundNE p x := by
  rw [roundNE_of_pos p hx]
  set e : ℤ := Int.log 2 x - ((p : ℤ) - 1) with he
  have he0 : (0 : ℚ) < (2 : ℚ) ^ e := by positivity
  have hsplit : (2 : ℚ) ^ Int.log 2 x = (((2 : ℤ) ^ (p - 1) : ℤ) : ℚ) * (2 : ℚ) ^ e := by
    push_cast
    rw [← zpow_natCast, ← zpow_add₀ (by norm_num : (2 : ℚ) ≠ 0)]
    congr 1
    rw [he, Nat.cast_sub hp]
    push_cast
    ring
  rw [hsplit]
  apply mul_le_mul_of_nonneg_right _ he0.le
  have : (((2 : ℤ) ^ (p - 1) : ℤ) : ℚ) ≤ x / (2 : ℚ) ^ e := by
    rw [le_div_iff₀ he0, ← hsplit]
    exact two_zpow_log_le hx
  have := roundHalfEven_mono this
  rw [roundHalfEven_intCast] at this
  exact_mod_cast this

theorem roundNE_le_two_zpow_log_succ (p : ℕ) {x : ℚ} (hx : 0 < x) :
    roundNE p x ≤ (2 : ℚ) ^ (Int.log 2 x + 1) := by
  rw [roundNE_of_pos p hx]
  set e : ℤ := Int.log 2 x - ((p : ℤ) - 1) with he
  have he0 : (0 : ℚ) < (2 : ℚ) ^ e := by positivity
  have hsplit : (2 : ℚ) ^ (Int.log 2 x + 1) = (((2 : ℤ) ^ p : ℤ) : ℚ) * (2 : ℚ) ^ e := by
    push_cast
    rw [← zpow_natCast, ← zpow_add₀ (by norm_num : (2 : ℚ) ≠ 0)]
    congr 1
    rw [he]
    ring
  rw [hsplit]
  apply mul_le_mul_of_nonneg_right _ he0.le
  have : x / (2 : ℚ) ^ e ≤ (((2 : ℤ) ^ p : ℤ) : ℚ) := by
    rw [div_le_iff₀ he0, ← hsplit]
    exact (lt_two_zpow_log_succ x).le
  have := roundHalfEven_mono this
  rw [roundHalfEven_intCast] at this
  exact_mod_cast this

theorem roundNE_pos {p : ℕ} (hp : 1 ≤ p) {x : ℚ} (hx : 0 < x) : 0 < roundNE p x :=
  lt_of_lt_of_le (by positivity) (two_zpow_log_le_roundNE hp hx)

theorem roundNE_nonneg {p : ℕ} (hp : 1 ≤ p) {x : ℚ} (hx : 0 ≤ x) : 0 ≤ roundNE p x := by
  rcases hx.lt_or_eq with h | h
  · exact (roundNE_pos hp h).le
  · rw [← h, roundNE_zero]

theorem roundNE_mono_of_pos {p : ℕ} (hp : 1 ≤ p) {x y : ℚ} (hx : 0 < x) (hxy : x ≤ y) :
    roundNE p x ≤ roundNE p y := by
  have hy : 0 < y := lt_of_lt_of_le hx hxy
  rcases (Int.log_mono_right (b := 2) hx hxy).lt_or_eq with hlt | heq
  · calc roundNE p x ≤ (2 : ℚ) ^ (Int.log 2 x + 1) := roundNE_le_two_zpow_log_succ p hx
      _ ≤ (2 : ℚ) ^ Int.log 2 y := zpow_le_zpow_right₀ (by norm_num) hlt
      _ ≤ roundNE p y := two_zpow_log_le_roundNE hp hy
  · rw [roundNE_of_pos p hx, roundNE_of_pos p hy, heq]
    have he0 : (0 : ℚ) < (2 : ℚ) ^ (Int.log 2 y - ((p : ℤ) - 1)) := by positivity
    apply mul_le_mul_of_nonneg_right _ he0.le
    exact_mod_cast roundHalfEven_mono (div_le_div_of_nonneg_right hxy he0.le)

/-- Rounding to nearest is monotone. -/
theorem roundNE_mono {p : ℕ} (hp : 1 ≤ p) {x y : ℚ} (hxy : x ≤ y) :
    roundNE p x ≤ roundNE p y := by
  rcases lt_trichotomy 0 x with hx | hx | hx
  · exact roundNE_mono_of_pos hp hx hxy
  · rw [← hx, roundNE_zero]
    exact roundNE_nonneg hp (hx ▸ hxy)
  · rcases le_or_lt 0 y with hy | hy
    · have h1 : roundNE p x ≤ 0 := by
        have := roundNE_nonneg hp (neg_nonneg.mpr hx.le)
        rw [roundNE_neg] at this
        linarith
      exact h1.trans (roundNE_nonneg hp hy)
    · have := roundNE_mono_of_pos hp (neg_pos.mpr hy) (neg_le_neg hxy)
      rw [roundNE_neg, roundNE_neg] at this
      linarith

theorem roundNE_eq_self_of_pos {p : ℕ} {x : ℚ} (m : ℤ) (k : ℤ) (hm : m < 2 ^ p)
    (hx : x = (m : ℚ) * (2 : ℚ) ^ k) (hpos : 0 < x) : roundNE p x = x := by
  rw [roundNE_of_pos p hpos]
  set e : ℤ := Int.log 2 x - ((p : ℤ) - 1) with he
  have he0 : (0 : ℚ) < (2 : ℚ) ^ e := by positivity
  have hk0 : (0 : ℚ) < (2 : ℚ) ^ k := by positivity
  have hlt : (2 : ℚ) ^ Int.log 2 x < (2 : ℚ) ^ ((p : ℤ) + k) := by
    calc (2 : ℚ) ^ Int.log 2 x ≤ x := two_zpow_log_le hpos
      _ = (m : ℚ) * (2 : ℚ) ^ k := hx
      _ < (((2 : ℤ) ^ p : ℤ) : ℚ) * (2 : ℚ) ^ k :=
          mul_lt_mul_of_pos_right (by exact_mod_cast hm) hk0
      _ = (2 : ℚ) ^ ((p : ℤ) + k) := by
          push_cast
          rw [zpow_add₀ (by norm_num : (2 : ℚ) ≠ 0), zpow_natCast]
  have hlog : Int.log 2 x < (p : ℤ) + k := (zpow_lt_zpow_iff_right₀ (by norm_num)).mp hlt
  obtain ⟨d, hd⟩ : ∃ d : ℕ, k = e + d := ⟨(k - e).toNat, by omega⟩
  have hdiv : x / (2 : ℚ) ^ e = ((m * 2 ^ d : ℤ) : ℚ) := by
    rw [div_eq_iff he0.ne', hx, hd, zpow_add₀ (by norm_num : (2 : ℚ) ≠ 0), zpow_natCast]
    push_cast
    ring
  rw [hdiv, roundHalfEven_intCast, ← hdiv, div_mul_cancel₀ _ he0.ne']

/-- A number `m * 2^k` whose significand `m` fits in `p` bits is its own rounding. -/
theorem roundNE_eq_self {p : ℕ} {x : ℚ} (m : ℤ) (k : ℤ) (hm : |m| < 2 ^ p)
    (hx : x = (m : ℚ) * (2 : ℚ) ^ k) : roundNE p x = x := by
  have hk0 : (0 : ℚ) < (2 : ℚ) ^ k := by positivity
  rcases lt_trichotomy 0 x with h | h | h
  · exact roundNE_eq_self_of_pos m k (lt_of_le_of_lt (le_abs_self m) hm) hx h
  · rw [← h, roundNE_zero]
  · have hneg : -x = ((-m : ℤ) : ℚ) * (2 : ℚ) ^ k := by
      rw [hx]
      push_cast
      ring
    have := roundNE_eq_self_of_pos (p := p) (-m) k
      (lt_of_le_of_lt (neg_le_abs m) hm) hneg (neg_pos.mpr h)
    rw [roundNE_neg] at this
    linarith

/-- An integer that fits in `p` bits is its own rounding. -/
theorem roundNE_intCast {p : ℕ} (n : ℤ) (hn : |n| < 2 ^ p) : roundNE p (n : ℚ) = n :=
  roundNE_eq_self n 0 hn (by simp)

/-- The rounding of a positive `x` in the binade `[2^k, 2^(k+1))` whose scaled value is
within one half of the integer `m`. -/
theorem roundNE_eq_of_near {p : ℕ} {x : ℚ} (k m : ℤ) (h1 : (2 : ℚ) ^ k ≤ x)
    (h2 : x < (2 : ℚ) ^ (k + 1))
    (h3 : |x / (2 : ℚ) ^ (k - ((p : ℤ) - 1)) - m| < 1 / 2) :
    roundNE p x = (m : ℚ) * (2 : ℚ) ^ (k - ((p : ℤ) - 1)) := by
  have hpos : 0 < x := lt_of_lt_of_le (by positivity) h1
  rw [roundNE_of_pos p hpos, log_two_eq h1 h2]
  congr 2
  have h4 := abs_sub_roundHalfEven_le (x / (2 : ℚ) ^ (k - ((p : ℤ) - 1)))
  set y := x / (2 : ℚ) ^ (k - ((p : ℤ) - 1))
  have h5 : |((roundHalfEven y - m : ℤ) : ℚ)| < 1 := by
    push_cast
    calc |(roundHalfEven y : ℚ) - m| = |(y - m) - (y - roundHalfEven y)| := by ring_nf
      _ ≤ |y - m| + |y - roundHalfEven y| := abs_sub _ _
      _ < 1 := by linarith
  have h6 : |roundHalfEven y - m| < 1 := by exact_mod_cast h5
  have := abs_lt.mp h6
  omega

/-! ## `float64` and `float32` -/

theorem float64_mono {x y : ℚ} (h : x ≤ y) : float64 x ≤ float64 y :=
  roundNE_mono (by norm_num) h

theorem float32_mono {x y : ℚ} (h : x ≤ y) : float32 x ≤ float32 y :=
  roundNE_mono (by norm_num) h

theorem float64_intCast (n : ℤ) (hn : |n| < 2 ^ 53) : float64 (n : ℚ) = n :=
  roundNE_intCast n hn

theorem float32_intCast (n : ℤ) (hn : |n| < 2 ^ 24) : float32 (n : ℚ) = n :=
  roundNE_intCast n hn

theorem float64_zero : float64 0 = 0 := roundNE_zero 53

theorem float32_zero : float32 0 = 0 := roundNE_zero 24

theorem float64_one : float64 1 = 1 := by
  simpa using float64_intCast 1 (by norm_num)

theorem float64_hundred : float64 100 = 100 := by
  simpa using float64_intCast 100 (by norm_num)

theorem float32_hundred : float32 100 = 100 := by
  simpa using float32_intCast 100 (by norm_num)

theorem float64_pos {x : ℚ} (h : 0 < x) : 0 < float64 x := roundNE_pos (by norm_num) h

theorem float64_natCast_pos {n : ℕ} (h : n ≠ 0) : 0 < float64 (n : ℚ) :=
  float64_pos (by exact_mod_cast Nat.pos_of_ne_zero h)

theorem Sprintf02f_zero : Sprintf02f 0 = 0 := by
  simp [Sprintf02f, roundHalfEven]

theorem Sprintf02f_mono {x y : ℚ} (h : x ≤ y) : Sprintf02f x ≤ Sprintf02f y := by
  unfold Sprintf02f
  apply div_le_div_of_nonneg_right _ (by norm_num)
  exact_mod_cast roundHalfEven_mono (mul_le_mul_of_nonneg_right h (by norm_num))

theorem Sprintf02f_hundred : Sprintf02f 100 = 100 := by
  unfold Sprintf02f
  have : (100 : ℚ) * 100 = ((10000 : ℤ) : ℚ) := by norm_num
  rw [this, roundHalfEven_intCast]
  norm_num

/-- Formatting with two decimals, parsing and storing as `float32` is monotone. -/
theorem stored_mono {x y : ℚ} (h : x ≤ y) : stored x ≤ stored y :=
  float32_mono (float64_mono (Sprintf02f_mono h))

theorem stored_zero : stored 0 = 0 := by
  rw [stored, Sprintf02f_zero, ParseFloat, float64_zero, float32_zero]

theorem stored_hundred : stored 100 = 100 := by
  rw [stored, Sprintf02f_hundred, ParseFloat, float64_hundred, float32_hundred]

/-- The percentage stored for a `float64` value between 0 and 100 is between 0 and 100. -/
theorem stored_mem_range {x : ℚ} (h0 : 0 ≤ x) (h1 : x ≤ 100) :
    0 ≤ stored x ∧ stored x ≤ 100 :=
  ⟨stored_zero ▸ stored_mono h0, stored_hundred ▸ stored_mono h1⟩

/-- The `float64` value of `100 - (f / h) * 100` never exceeds 100. -/
theorem avgOf_le_hundred (f h : ℕ) : avgOf f h ≤ 100 := by
  unfold avgOf
  have h1 : (0 : ℚ) ≤ float64 f := roundNE_nonneg (by norm_num) (Nat.cast_nonneg f)
  have h2 : (0 : ℚ) ≤ float64 h := roundNE_nonneg (by norm_num) (Nat.cast_nonneg h)
  have h3 : (0 : ℚ) ≤ float64 (float64 f / float64 h) :=
    roundNE_nonneg (by norm_num) (div_nonneg h1 h2)
  have h4 : (0 : ℚ) ≤ f64Mul (float64 (float64 f / float64 h)) 100 :=
    roundNE_nonneg (by norm_num) (mul_nonneg h3 (by norm_num))
  have := float64_mono (show 100 - f64Mul (float64 (float64 f / float64 h)) 100 ≤ 100 by linarith)
  rwa [float64_hundred] at this

/-- With no more failures than hits, the `float64` value of `100 - (f / h) * 100` is not
negative. -/
theorem avgOf_nonneg {f h : ℕ} (hh : h ≠ 0) (hfh : f ≤ h) : 0 ≤ avgOf f h := by
  unfold avgOf
  have hpos : (0 : ℚ) < float64 h := float64_natCast_pos hh
  have h1 : float64 (f : ℚ) ≤ float64 (h : ℚ) := float64_mono (by exact_mod_cast hfh)
  have h2 : float64 (float64 f / float64 h) ≤ 1 := by
    have := float64_mono ((div_le_one hpos).mpr h1)
    rwa [float64_one] at this
  have h3 : f64Mul (float64 (float64 f / float64 h)) 100 ≤ 100 := by
    have := float64_mono (show float64 (float64 f / float64 h) * 100 ≤ 100 by linarith)
    rwa [float64_hundred] at this
  have := float64_mono (show 0 ≤ 100 - f64Mul (float64 (float64 f / float64 h)) 100 by linarith)
  rwa [float64_zero] at this

/-- With at least as many failures as hits, the `float64` value of `100 - (f / h) * 100`
is not positive. -/
theorem avgOf_nonpos {f h : ℕ} (hh : h ≠ 0) (hfh : h ≤ f) : avgOf f h ≤ 0 := by
  unfold avgOf
  have hpos : (0 : ℚ) < float64 h := float64_natCast_pos hh
  have h1 : float64 (h : ℚ) ≤ float64 (f : ℚ) := float64_mono (by exact_mod_cast hfh)
  have h2 : 1 ≤ float64 (float64 f / float64 h) := by
    have := float64_mono ((one_le_div hpos).mpr h1)
    rwa [float64_one] at this
  have h3 : 100 ≤ f64Mul (float64 (float64 f / float64 h)) 100 := by
    have := float64_mono (show 100 ≤ float64 (float64 f / float64 h) * 100 by linarith)
    rwa [float64_hundred] at this
  have := float64_mono (show 100 - f64Mul (float64 (float64 f / float64 h)) 100 ≤ 0 by linarith)
  rwa [float64_zero] at this

/-! ## `OnlineSince`, branch by branch -/

theorem OnlineSince_of_no_failures (db : Database) (s : Service) (ago : Int)
    (h : (FailureObj.Since (Failures db s) ago).length = 0) :
    OnlineSince db s ago = some (100, { s with Online24Hours := 100 }) := by
  simp only [OnlineSince, h, if_true]

theorem OnlineSince_of_no_hits (db : Database) (s : Service) (ago : Int)
    (hf : (FailureObj.Since (Failures db s) ago).length ≠ 0)
    (hh : (HitObj.Since (Hits db s) ago).length = 0) :
    OnlineSince db s ago = some (0, { s with Online24Hours := 0 }) := by
  simp only [OnlineSince, hf, hh, if_true, if_false]

/-- The value computed by the last branch: the stored percentage of the floored
`float64` value of `100 - (f / h) * 100`. -/
theorem OnlineSince_of_counts (db : Database) (s : Service) (ago : Int)
    (hf : (FailureObj.Since (Failures db s) ago).length ≠ 0)
    (hh : (HitObj.Since (Hits db s) ago).length ≠ 0) :
    OnlineSince db s ago =
      some (stored (if avgOf (FailureObj.Since (Failures db s) ago).length
                (HitObj.Since (Hits db s) ago).length < 0 then 0
              else avgOf (FailureObj.Since (Failures db s) ago).length
                (HitObj.Since (Hits db s) ago).length),
        { s with Online24Hours :=
            stored (if avgOf (FailureObj.Since (Failures db s) ago).length
                (HitObj.Since (Hits db s) ago).length < 0 then 0
              else avgOf (FailureObj.Since (Failures db s) ago).length
                (HitObj.Since (Hits db s) ago).length) }) := by
  have hd : float64 ((HitObj.Since (Hits db s) ago).length : ℚ) ≠ 0 :=
    (float64_natCast_pos hh).ne'
  simp only [OnlineSince, hf, hh, if_false, f64Div, hd, Option.map_some', stored, avgOf]

/-- The stored percentage of a floored value lies between 0 and 100. -/
theorem stored_floor_mem_range (f h : ℕ) :
    0 ≤ stored (if avgOf f h < 0 then 0 else avgOf f h) ∧
      stored (if avgOf f h < 0 then 0 else avgOf f h) ≤ 100 := by
  split_ifs with hneg
  · exact stored_mem_range le_rfl (by norm_num)
  · exact stored_mem_range (not_lt.mp hneg) (avgOf_le_hundred f h)

theorem uptimeFormula_two_ten : uptimeFormula 2 10 = 80 := by
  have e1 : float64 ((2 : ℕ) : ℚ) = 2 := by
    simpa using float64_intCast 2 (by norm_num)
  have e2 : float64 ((10 : ℕ) : ℚ) = 10 := by
    simpa using float64_intCast 10 (by norm_num)
  have e3 : float64 ((2 : ℚ) / 10) = 3602879701896397 / 2 ^ 54 := by
    unfold float64
    rw [roundNE_eq_of_near (-3) 7205759403792794] <;> norm_num [abs_lt]
  have e4 : float64 ((3602879701896397 : ℚ) / 2 ^ 54 * 100) = 20 := by
    unfold float64
    rw [roundNE_eq_of_near 4 5629499534213120] <;> norm_num [abs_lt]
  have e5 : float64 ((100 : ℚ) - 20) = 80 := by
    have := float64_intCast 80 (by norm_num)
    norm_num at this ⊢
    exact this
  have e6 : Sprintf02f 80 = 80 := by
    unfold Sprintf02f
    have : (80 : ℚ) * 100 = ((8000 : ℤ) : ℚ) := by norm_num
    rw [this, roundHalfEven_intCast]
    norm_num
  have e7 : float64 (80 : ℚ) = 80 := by
    simpa using float64_intCast 80 (by norm_num)
  have e8 : float32 (80 : ℚ) = 80 := by
    simpa using float32_intCast 80 (by norm_num)
  rw [uptimeFormula, avgOf, e1, e2, e3, f64Mul, e4, f64Sub, e5, stored, e6, ParseFloat, e7, e8]

/-! ## Distance to the exact value -/

/-- Rounding to a `p`-bit significand changes a number by at most `2^-p` of its size. -/
theorem abs_roundNE_sub_le {p : ℕ} (x : ℚ) : |roundNE p x - x| ≤ |x| / 2 ^ p := by
  have hpos : ∀ y : ℚ, 0 < y → |roundNE p y - y| ≤ y / 2 ^ p := by
    intro y hy
    rw [roundNE_of_pos p hy]
    set e : ℤ := Int.log 2 y - ((p : ℤ) - 1) with he
    have he0 : (0 : ℚ) < (2 : ℚ) ^ e := by positivity
    have h1 := abs_sub_roundHalfEven_le (y / (2 : ℚ) ^ e)
    have h2 : (roundHalfEven (y / (2 : ℚ) ^ e) : ℚ) * (2 : ℚ) ^ e - y =
        -((y / (2 : ℚ) ^ e - roundHalfEven (y / (2 : ℚ) ^ e)) * (2 : ℚ) ^ e) := by
      field_simp
      ring
    rw [h2, abs_neg, abs_mul, abs_of_pos he0]
    have h3 : (2 : ℚ) ^ e = (2 : ℚ) ^ Int.log 2 y * 2 / 2 ^ p := by
      rw [he, zpow_sub₀ (by norm_num : (2 : ℚ) ≠ 0), zpow_sub₀ (by norm_num : (2 : ℚ) ≠ 0),
        zpow_natCast, zpow_one]
      field_simp
    have h4 := two_zpow_log_le hy
    have hp0 : (0 : ℚ) < 2 ^ p := by positivity
    calc |y / (2 : ℚ) ^ e - roundHalfEven (y / (2 : ℚ) ^ e)| * (2 : ℚ) ^ e
        ≤ 1 / 2 * (2 : ℚ) ^ e := mul_le_mul_of_nonneg_right h1 he0.le
      _ = (2 : ℚ) ^ Int.log 2 y / 2 ^ p := by rw [h3]; ring
      _ ≤ y / 2 ^ p := div_le_div_of_nonneg_right h4 hp0.le
  rcases lt_trichotomy 0 x with h | h | h
  · rw [abs_of_pos h]
    exact hpos x h
  · rw [← h, roundNE_zero]
    simp
  · have := hpos (-x) (neg_pos.mpr h)
    rw [roundNE_neg] at this
    rw [abs_of_neg h]
    have e : -roundNE p x - -x = -(roundNE p x - x) := by ring
    rwa [e, abs_neg] at this

theorem abs_float64_sub_le {x B : ℚ} (h : |x| ≤ B) : |float64 x - x| ≤ B / 2 ^ 53 :=
  (abs_roundNE_sub_le x).trans (div_le_div_of_nonneg_right h (by positivity))

theorem abs_float32_sub_le {x B : ℚ} (h : |x| ≤ B) : |float32 x - x| ≤ B / 2 ^ 24 :=
  (abs_roundNE_sub_le x).trans (div_le_div_of_nonneg_right h (by positivity))

theorem abs_Sprintf02f_sub_le (x : ℚ) : |Sprintf02f x - x| ≤ 1 / 200 := by
  have h := abs_sub_roundHalfEven_le (x * 100)
  unfold Sprintf02f
  rw [abs_le] at h ⊢
  constructor <;> linarith [h.1, h.2]

/-- A quotient of two positive numbers perturbed by at most the fraction `u` of their
size moves by at most `3 * u`, when it is at most 1. -/
theorem abs_div_sub_div_le {a b f h u : ℚ} (hf : 0 < f) (hfh : f ≤ h) (hb : 0 < b)
    (hu0 : 0 ≤ u) (hu : u ≤ 1 / 3) (ha1 : -(f * u) ≤ a - f) (ha2 : a - f ≤ f * u)
    (hb1 : -(h * u) ≤ b - h) (hb2 : b - h ≤ h * u) : |a / b - f / h| ≤ 3 * u := by
  have hh : 0 < h := lt_of_lt_of_le hf hfh
  have hbh : 0 < b * h := mul_pos hb hh
  have hsplit : a / b - f / h = (a * h - f * b) / (b * h) := by
    field_simp
    ring
  have k1 : (a - f) * h ≤ f * u * h := mul_le_mul_of_nonneg_right ha2 hh.le
  have k2 : -(f * u) * h ≤ (a - f) * h := mul_le_mul_of_nonneg_right ha1 hh.le
  have k3 : f * (b - h) ≤ f * (h * u) := mul_le_mul_of_nonneg_left hb2 hf.le
  have k4 : f * -(h * u) ≤ f * (b - h) := mul_le_mul_of_nonneg_left hb1 hf.le
  have k5 : f * h * u ≤ h * h * u :=
    mul_le_mul_of_nonneg_right (mul_le_mul_of_nonneg_right hfh hh.le) hu0
  have k6 : h * (1 - u) * (h * u) ≤ b * (h * u) :=
    mul_le_mul_of_nonneg_right (by linarith) (mul_nonneg hh.le hu0)
  have k7 : 0 ≤ h * h * u * (1 - 3 * u) :=
    mul_nonneg (mul_nonneg (mul_nonneg hh.le hh.le) hu0) (by linarith)
  rw [hsplit, abs_le]
  constructor
  · rw [le_div_iff₀ hbh]
    nlinarith
  · rw [div_le_iff₀ hbh]
    nlinarith

/-- The `float64` value of `100 - (f / h) * 100` is within `600 / 2^53` of the exact
value when `0 < f ≤ h`. -/
theorem abs_avgOf_sub_le {f h : ℕ} (hf : 0 < f) (hfh : f ≤ h) :
    |avgOf f h - (100 - (f : ℚ) / h * 100)| ≤ 600 / 2 ^ 53 := by
  have hh : h ≠ 0 := by omega
  have hfq : (0 : ℚ) < f := by exact_mod_cast hf
  have hhq : (0 : ℚ) < h := by exact_mod_cast Nat.pos_of_ne_zero hh
  have hfhq : (f : ℚ) ≤ h := by exact_mod_cast hfh
  have ha0 : (0 : ℚ) < float64 f := float64_natCast_pos (by omega)
  have hb0 : (0 : ℚ) < float64 h := float64_natCast_pos hh
  have hab : float64 (f : ℚ) ≤ float64 (h : ℚ) := float64_mono hfhq
  have ha := abs_le.mp (abs_float64_sub_le (x := (f : ℚ)) (B := f) (by rw [abs_of_pos hfq]))
  have hb := abs_le.mp (abs_float64_sub_le (x := (h : ℚ)) (B := h) (by rw [abs_of_pos hhq]))
  -- the quotient of the converted counts
  have hr1 : float64 (f : ℚ) / float64 (h : ℚ) ≤ 1 := (div_le_one hb0).mpr hab
  have hr0 : 0 ≤ float64 (f : ℚ) / float64 (h : ℚ) := (div_pos ha0 hb0).le
  have ha1 : -((f : ℚ) * (1 / 2 ^ 53)) ≤ float64 (f : ℚ) - f := by linarith [ha.1]
  have ha2 : float64 (f : ℚ) - f ≤ (f : ℚ) * (1 / 2 ^ 53) := by linarith [ha.2]
  have hb1 : -((h : ℚ) * (1 / 2 ^ 53)) ≤ float64 (h : ℚ) - h := by linarith [hb.1]
  have hb2 : float64 (h : ℚ) - h ≤ (h : ℚ) * (1 / 2 ^ 53) := by linarith [hb.2]
  have hr := abs_le.mp (abs_div_sub_div_le (a := float64 (f : ℚ)) (b := float64 (h : ℚ))
    (u := 1 / 2 ^ 53) hfq hfhq hb0 (by positivity) (by norm_num) ha1 ha2 hb1 hb2)
  -- the rounded quotient
  have hq1 : float64 (float64 (f : ℚ) / float64 (h : ℚ)) ≤ 1 := by
    have := float64_mono hr1
    rwa [float64_one] at this
  have hq0 : 0 ≤ float64 (float64 (f : ℚ) / float64 (h : ℚ)) :=
    roundNE_nonneg (by norm_num) hr0
  have hq := abs_le.mp (abs_float64_sub_le (x := float64 (f : ℚ) / float64 (h : ℚ)) (B := 1)
    (by rw [abs_of_nonneg hr0]; exact hr1))
  -- the product with 100
  have hm := abs_le.mp (abs_float64_sub_le
    (x := float64 (float64 (f : ℚ) / float64 (h : ℚ)) * 100) (B := 100)
    (by rw [abs_of_nonneg (by positivity)]; linarith))
  have hm1 : float64 (float64 (float64 (f : ℚ) / float64 (h : ℚ)) * 100) ≤ 100 := by
    have := float64_mono
      (show float64 (float64 (f : ℚ) / float64 (h : ℚ)) * 100 ≤ 100 by linarith)
    rwa [float64_hundred] at this
  have hm0 : 0 ≤ float64 (float64 (float64 (f : ℚ) / float64 (h : ℚ)) * 100) :=
    roundNE_nonneg (by norm_num) (by positivity)
  -- the difference from 100
  have hd := abs_le.mp (abs_float64_sub_le
    (x := 100 - float64 (float64 (float64 (f : ℚ) / float64 (h : ℚ)) * 100)) (B := 100)
    (by rw [abs_of_nonneg (by linarith)]; linarith))
  unfold avgOf f64Sub f64Mul
  rw [abs_le]
  constructor <;> linarith [hq.1, hq.2, hm.1, hm.2, hd.1, hd.2, hr.1, hr.2]

/-- The percentage stored for a value in `[0, 100]` is within `0.00501` of it. -/
theorem abs_stored_sub_le {x : ℚ} (h0 : 0 ≤ x) (h1 : x ≤ 100) :
    |stored x - x| ≤ 501 / 100000 := by
  have hs := abs_le.mp (abs_Sprintf02f_sub_le x)
  have hs0 : 0 ≤ Sprintf02f x := Sprintf02f_zero ▸ Sprintf02f_mono h0
  have hs1 : Sprintf02f x ≤ 100 := Sprintf02f_hundred ▸ Sprintf02f_mono h1
  have hp := abs_le.mp (abs_float64_sub_le (x := Sprintf02f x) (B := 100)
    (by rw [abs_of_nonneg hs0]; exact hs1))
  have hp0 : 0 ≤ float64 (Sprintf02f x) := float64_zero ▸ float64_mono hs0
  have hp1 : float64 (Sprintf02f x) ≤ 100 := float64_hundred ▸ float64_mono hs1
  have hv := abs_le.mp (abs_float32_sub_le (x := float64 (Sprintf02f x)) (B := 100)
    (by rw [abs_of_nonneg hp0]; exact hp1))
  unfold stored ParseFloat
  rw [abs_le]
  norm_num at hp hv ⊢
  constructor <;> linarith [hs.1, hs.2, hp.1, hp.2, hv.1, hv.2]

/-- For `0 < f ≤ h` the returned percentage is within `0.0051` of the exact value of
`100 - (f / h) * 100`. -/
theorem abs_uptimeFormula_sub_le {f h : ℕ} (hf : 0 < f) (hfh : f ≤ h) :
    |uptimeFormula f h - (100 - (f : ℚ) / h * 100)| ≤ 51 / 10000 := by
  have hh : h ≠ 0 := by omega
  have h1 := abs_le.mp (abs_avgOf_sub_le hf hfh)
  have h2 := abs_le.mp (abs_stored_sub_le (avgOf_nonneg hh hfh) (avgOf_le_hundred f h))
  unfold uptimeFormula
  rw [abs_le]
  norm_num at h1 h2 ⊢
  constructor <;> linarith [h1.1, h1.2, h2.1, h2.2]

/-! ## Uptime percentage: the claims -/

/-- C3: in a window without (non-checkin) failures `OnlineSince` returns exactly 100,
whatever the hits are, and stores it in `Online24Hours`. -/
theorem OnlineSince_no_failures (db : Database) (s : Service) (ago : Int)
    (h : FailureObj.Since (Failures db s) ago = []) :
    OnlineSince db s ago = some (100, { s with Online24Hours := 100 }) :=
  OnlineSince_of_no_failures db s ago (by rw [h]; rfl)

/-- C3, on a store with 5 hits and no failure, and on an empty store. -/
theorem OnlineSince_no_failures_witness :
    (FailureObj.Since (Failures (sampleDb 0 5) sampleService) 0).length = 0 ∧
      (HitObj.Since (Hits (sampleDb 0 5) sampleService) 0).length = 5 ∧
      OnlineSince (sampleDb 0 5) sampleService 0 =
        some (100, { sampleService with Online24Hours := 100 }) ∧
      OnlineSince (sampleDb 0 0) sampleService 0 =
        some (100, { sampleService with Online24Hours := 100 }) :=
  ⟨by decide, by decide, OnlineSince_no_failures _ _ _ (by decide),
    OnlineSince_no_failures _ _ _ (by decide)⟩

/-- C4: in a window with at least one failure and no hit `OnlineSince` returns exactly 0,
and stores it in `Online24Hours`. -/
theorem OnlineSince_failures_no_hits (db : Database) (s : Service) (ago : Int)
    (hf : 0 < (FailureObj.Since (Failures db s) ago).length)
    (hh : HitObj.Since (Hits db s) ago = []) :
    OnlineSince db s ago = some (0, { s with Online24Hours := 0 }) :=
  OnlineSince_of_no_hits db s ago hf.ne' (by rw [hh]; rfl)

/-- C4, on a store with 3 failures and no hit. -/
theorem OnlineSince_failures_no_hits_witness :
    (FailureObj.Since (Failures (sampleDb 3 0) sampleService) 0).length = 3 ∧
      (HitObj.Since (Hits (sampleDb 3 0) sampleService) 0).length = 0 ∧
      OnlineSince (sampleDb 3 0) sampleService 0 =
        some (0, { sampleService with Online24Hours := 0 }) :=
  ⟨by decide, by decide, OnlineSince_failures_no_hits _ _ _ (by decide) (by decide)⟩

/-- C5: for every store, service and window `OnlineSince` returns a finite value (the
quotient is never taken with a zero divisor), that value lies in `[0, 100]`, and it is 0
whenever the window has failures and at most as many hits as failures. -/
theorem OnlineSince_mem_range (db : Database) (s : Service) (ago : Int) :
    ∃ v : ℚ, OnlineSince db s ago = some (v, { s with Online24Hours := v }) ∧
      0 ≤ v ∧ v ≤ 100 ∧
      ((FailureObj.Since (Failures db s) ago).length ≠ 0 →
        (HitObj.Since (Hits db s) ago).length ≤ (FailureObj.Since (Failures db s) ago).length →
        v = 0) := by
  by_cases hf : (FailureObj.Since (Failures db s) ago).length = 0
  · exact ⟨100, OnlineSince_of_no_failures db s ago hf, by norm_num, le_rfl,
      fun h => absurd hf h⟩
  · by_cases hh : (HitObj.Since (Hits db s) ago).length = 0
    · exact ⟨0, OnlineSince_of_no_hits db s ago hf hh, le_rfl, by norm_num, fun _ _ => rfl⟩
    · refine ⟨_, OnlineSince_of_counts db s ago hf hh, (stored_floor_mem_range _ _).1,
        (stored_floor_mem_range _ _).2, fun _ hle => ?_⟩
      have hle0 := avgOf_nonpos hh hle
      split_ifs with hneg
      · exact stored_zero
      · rw [le_antisymm hle0 (not_lt.mp hneg)]
        exact stored_zero

/-- C2: in a window with `f` failures and `h` hits, `h ≥ f > 0`, `OnlineSince` returns
`100 - (f / h) * 100` rounded to two decimals (`uptimeFormula f h`, no floor applied),
which is within `0.0051` of the exact value of that expression; the value lies in
`[0, 100]`, and for 2 failures and 10 hits it is 80. -/
theorem OnlineSince_eq_uptimeFormula (db : Database) (s : Service) (ago : Int)
    (hf : 0 < (FailureObj.Since (Failures db s) ago).length)
    (hfh : (FailureObj.Since (Failures db s) ago).length ≤
      (HitObj.Since (Hits db s) ago).length) :
    OnlineSince db s ago =
        some (uptimeFormula (FailureObj.Since (Failures db s) ago).length
            (HitObj.Since (Hits db s) ago).length,
          { s with Online24Hours :=
              (uptimeFormula (FailureObj.Since (Failures db s) ago).length
                (HitObj.Since (Hits db s) ago).length) }) ∧
      |uptimeFormula (FailureObj.Since (Failures db s) ago).length
            (HitObj.Since (Hits db s) ago).length -
          (100 - ((FailureObj.Since (Failures db s) ago).length : ℚ) /
            ((HitObj.Since (Hits db s) ago).length : ℚ) * 100)| ≤ 51 / 10000 ∧
      0 ≤ uptimeFormula (FailureObj.Since (Failures db s) ago).length
            (HitObj.Since (Hits db s) ago).length ∧
      uptimeFormula (FailureObj.Since (Failures db s) ago).length
            (HitObj.Since (Hits db s) ago).length ≤ 100 ∧
      ((FailureObj.Since (Failures db s) ago).length = 2 →
        (HitObj.Since (Hits db s) ago).length = 10 →
        OnlineSince db s ago = some (80, { s with Online24Hours := 80 })) := by
  have hh : (HitObj.Since (Hits db s) ago).length ≠ 0 := by omega
  have h0 := avgOf_nonneg hh hfh
  have heq := OnlineSince_of_counts db s ago hf.ne' hh
  rw [if_neg (not_lt.mpr h0)] at heq
  refine ⟨heq, abs_uptimeFormula_sub_le hf hfh, (stored_mem_range h0 (avgOf_le_hundred _ _)).1,
    (stored_mem_range h0 (avgOf_le_hundred _ _)).2, fun h2 h10 => ?_⟩
  rw [heq, h2, h10]
  exact congrArg some (by rw [show stored (avgOf 2 10) = 80 from uptimeFormula_two_ten])

/-- C2, on a store with 2 failures and 10 hits. -/
theorem OnlineSince_eq_uptimeFormula_witness :
    (FailureObj.Since (Failures (sampleDb 2 10) sampleService) 0).length = 2 ∧
      (HitObj.Since (Hits (sampleDb 2 10) sampleService) 0).length = 10 ∧
      OnlineSince (sampleDb 2 10) sampleService 0 =
        some (80, { sampleService with Online24Hours := 80 }) :=
  ⟨by decide, by decide,
    (OnlineSince_eq_uptimeFormula (sampleDb 2 10) sampleService 0 (by decide)
      (by decide)).2.2.2.2 (by decide) (by decide)⟩

/-! ## `UpdateStats` -/

theorem Failures_congr (db : Database) {s t : Service} (h : s.Id = t.Id) :
    Failures db s = Failures db t := by
  simp only [Failures, h]

theorem Hits_congr (db : Database) {s t : Service} (h : s.Id = t.Id) :
    Hits db s = Hits db t := by
  simp only [Hits, h]

/-- The percentage returned by `OnlineSince`, as a function of the store, the service
identifier and the window only. -/
theorem OnlineSince_fst_congr (db : Database) {s t : Service} (ago : Int) (h : s.Id = t.Id) :
    (OnlineSince db s ago).map Prod.fst = (OnlineSince db t ago).map Prod.fst := by
  simp only [OnlineSince, Failures_congr db h, Hits_congr db h]
  split_ifs <;> simp [Option.map_map, Function.comp_def]

/-- `OnlineSince` always returns a value, and leaves it in `Online24Hours`. -/
theorem OnlineSince_total (db : Database) (s : Service) (ago : Int) :
    ∃ v : ℚ, OnlineSince db s ago = some (v, { s with Online24Hours := v }) := by
  by_cases hf : (FailureObj.Since (Failures db s) ago).length = 0
  · exact ⟨_, OnlineSince_of_no_failures db s ago hf⟩
  · by_cases hh : (HitObj.Since (Hits db s) ago).length = 0
    · exact ⟨_, OnlineSince_of_no_hits db s ago hf hh⟩
    · exact ⟨_, OnlineSince_of_counts db s ago hf hh⟩

theorem wrapInt64_day : wrapInt64 (wrapInt64 (-24 * 1) * Hour) = -Day := by decide

theorem wrapInt64_week : wrapInt64 (wrapInt64 (-24 * 7) * Hour) = -(7 * Day) := by decide

theorem wrapInt64_neg_day : wrapInt64 (-Hour * 24) = -Day := by decide

/-- What `UpdateStats` leaves in the record: both uptime fields hold the percentage of
the 7-day window, because the call `OnlineDaysPercent(7)` assigns `Online24Hours` again
after `UpdateStats` has set it. -/
theorem UpdateStats_eq (db : Database) (now : Int) (s : Service) (v : ℚ) (t : Service)
    (h7 : OnlineSince db s (now - 7 * Day) = some (v, t)) :
    UpdateStats db now s =
      some { Id := s.Id, Online24Hours := v, Online7Days := v, AvgResponse := AvgTime db s,
             FailuresLast24Hours := (FailureObj.Since (Failures db s) (now - Day)).length,
             Stats := some { Failures := FailureObj.Count (Failures db s),
                             Hits := HitObj.Count (Hits db s) } } := by
  obtain ⟨v1, h1⟩ := OnlineSince_total db s (now - Day)
  obtain ⟨w, hw⟩ := OnlineSince_total db { s with Online24Hours := v1 } (now - 7 * Day)
  have hv : w = v := by
    have := OnlineSince_fst_congr db (s := { s with Online24Hours := v1 }) (t := s)
      (now - 7 * Day) rfl
    rw [hw, h7] at this
    simpa using this
  subst hv
  simp only [UpdateStats, OnlineDaysPercent, wrapInt64_day, wrapInt64_week, wrapInt64_neg_day,
    ← sub_eq_add_neg, h1, hw, Option.some_bind, Option.map_some', AvgTime]
  rfl

theorem uptimeFormula_one_two : uptimeFormula 1 2 = 50 := by
  have e1 : float64 ((1 : ℕ) : ℚ) = 1 := by
    simpa using float64_intCast 1 (by norm_num)
  have e2 : float64 ((2 : ℕ) : ℚ) = 2 := by
    simpa using float64_intCast 2 (by norm_num)
  have e3 : float64 ((1 : ℚ) / 2) = 1 / 2 := by
    unfold float64
    exact roundNE_eq_self 1 (-1) (by norm_num) (by norm_num)
  have e4 : float64 ((1 : ℚ) / 2 * 100) = 50 := by
    have := float64_intCast 50 (by norm_num)
    norm_num at this ⊢
    exact this
  have e5 : float64 ((100 : ℚ) - 50) = 50 := by
    have := float64_intCast 50 (by norm_num)
    norm_num at this ⊢
    exact this
  have e6 : Sprintf02f 50 = 50 := by
    unfold Sprintf02f
    have : (50 : ℚ) * 100 = ((5000 : ℤ) : ℚ) := by norm_num
    rw [this, roundHalfEven_intCast]
    norm_num
  have e7 : float64 (50 : ℚ) = 50 := by
    simpa using float64_intCast 50 (by norm_num)
  have e8 : float32 (50 : ℚ) = 50 := by
    simpa using float32_intCast 50 (by norm_num)
  rw [uptimeFormula, avgOf, e1, e2, e3, f64Mul, e4, f64Sub, e5, stored, e6, ParseFloat, e7, e8]

/-- C1 (fails on the code): on a store with one failure two days ago and two hits within
the last day, the 24-hour uptime is 100 and the 7-day uptime is 50, yet `UpdateStats`
leaves 50 in both `Online24Hours` and `Online7Days`. -/
theorem UpdateStats_online24Hours_overwritten :
    OnlineSince staleFailureDb sampleService (7 * Day - Day) =
        some (100, { sampleService with Online24Hours := 100 }) ∧
      OnlineSince staleFailureDb sampleService (7 * Day - 7 * Day) =
        some (50, { sampleService with Online24Hours := 50 }) ∧
      (UpdateStats staleFailureDb (7 * Day) sampleService).map Service.Online24Hours =
        some 50 ∧
      (UpdateStats staleFailureDb (7 * Day) sampleService).map Service.Online7Days =
        some 50 := by
  have h24 : OnlineSince staleFailureDb sampleService (7 * Day - Day) =
      some (100, { sampleService with Online24Hours := 100 }) :=
    OnlineSince_of_no_failures _ _ _ (by decide)
  have hf : (FailureObj.Since (Failures staleFailureDb sampleService)
      (7 * Day - 7 * Day)).length = 1 := by decide
  have hh : (HitObj.Since (Hits staleFailureDb sampleService)
      (7 * Day - 7 * Day)).length = 2 := by decide
  have h7 : OnlineSince staleFailureDb sampleService (7 * Day - 7 * Day) =
      some (50, { sampleService with Online24Hours := 50 }) := by
    have h0 := avgOf_nonneg (f := 1) (h := 2) (by norm_num) (by norm_num)
    have := OnlineSince_of_counts staleFailureDb sampleService (7 * Day - 7 * Day)
      (by rw [hf]; norm_num) (by rw [hh]; norm_num)
    rw [hf, hh, if_neg (not_lt.mpr h0),
      show stored (avgOf 1 2) = 50 from uptimeFormula_one_two] at this
    exact this
  have hu := UpdateStats_eq staleFailureDb (7 * Day) sampleService 50 _ h7
  refine ⟨h24, h7, ?_, ?_⟩ <;> rw [hu] <;> rfl

/-! ## The failure classifier -/

theorem containsChars_iff (s sub : List Char) : containsChars s sub = true ↔ sub <:+: s := by
  induction s with
  | nil => simp [containsChars, List.isEmpty_iff]
  | cons c cs ih =>
    rw [containsChars, Bool.or_eq_true, ih, List.infix_cons_iff, List.isPrefixOf_iff_prefix]

/-- `strings.Contains` decides the substring relation. -/
theorem Contains_iff (s substr : String) : Contains s substr = true ↔ IsSubstring substr s :=
  containsChars_iff s.data substr.data

theorem decide_IsSubstring (substr s : String) :
    decide (IsSubstring substr s) = Contains s substr := by
  rw [Bool.eq_iff_iff, decide_eq_true_iff, Contains_iff]

theorem firstMatch_nil (text : String) : firstMatch [] text = text := rfl

theorem firstMatch_cons (pattern label : String) (rest : List (String × String))
    (text : String) :
    firstMatch ((pattern, label) :: rest) text =
      if Contains text pattern then label else firstMatch rest text := by
  unfold firstMatch
  rw [List.find?_cons, decide_IsSubstring]
  cases Contains text pattern <;> rfl

theorem parseError_of_ne_checkin (f : Failure) (h : f.Method ≠ "checkin") :
    parseError f = firstMatch classifierTable f.Issue := by
  simp only [parseError, if_neg h, classifierTable, firstMatch_cons, firstMatch_nil]

/-- C6: a failure whose method is "checkin" is classified as "Checkin is Offline",
whatever its diagnostic text. -/
theorem parseError_checkin (f : Failure) (h : f.Method = "checkin") :
    parseError f = "Checkin is Offline" := by
  simp only [parseError, h, if_true]

/-- C6, on a checkin failure whose text contains two patterns, and on one with empty
text. -/
theorem parseError_checkin_witness :
    parseError { Issue := "no such host, connection refused", Method := "checkin",
                 Service := 1, CreatedAt := 0 } = "Checkin is Offline" ∧
      parseError { Issue := "", Method := "checkin", Service := 1, CreatedAt := 0 } =
        "Checkin is Offline" :=
  ⟨parseError_checkin _ rfl, parseError_checkin _ rfl⟩

/-- C7: for a failure whose method is not "checkin", `parseError` is the first-match
lookup of the diagnostic text in the ordered table `classifierTable`; in particular a
text containing "no such host" and none of the four earlier patterns is classified as
"Domain is offline or not found", also when it contains "connection refused". -/
theorem parseError_eq_firstMatch (f : Failure) (h : f.Method ≠ "checkin") :
    parseError f = firstMatch classifierTable f.Issue ∧
      (IsSubstring "no such host" f.Issue →
        ¬ IsSubstring "connection reset by peer" f.Issue →
        ¬ IsSubstring "operation timed out" f.Issue →
        ¬ IsSubstring "x509: certificate is valid" f.Issue →
        ¬ IsSubstring "Client.Timeout exceeded while awaiting headers" f.Issue →
        parseError f = "Domain is offline or not found") := by
  constructor
  · exact parseError_of_ne_checkin f h
  · intro h5 h1 h2 h3 h4
    rw [← Contains_iff] at h1 h2 h3 h4 h5
    rw [parseError, if_neg h, if_neg h1, if_neg h2, if_neg h3, if_neg h4, if_pos h5]

/-- C7, on a probe failure whose text contains both "no such host" and "connection
refused". -/
theorem parseError_eq_firstMatch_witness :
    parseError { Issue := "connection refused after lookup: no such host", Method := "http",
                 Service := 1, CreatedAt := 0 } = "Domain is offline or not found" ∧
      firstMatch classifierTable "connection refused after lookup: no such host" =
        "Domain is offline or not found" :=
  ⟨(parseError_eq_firstMatch _ (by decide)).2 (by decide) (by decide) (by decide) (by decide)
      (by decide),
    (parseError_eq_firstMatch
      { Issue := "connection refused after lookup: no such host", Method := "http",
        Service := 1, CreatedAt := 0 } (by decide)).1.symm.trans (by decide)⟩

/-- C8: a failure whose method is not "checkin" and whose text contains none of the
eleven patterns is classified as its own text, unchanged. -/
theorem parseError_unmatched (f : Failure) (h : f.Method ≠ "checkin")
    (hnone : ∀ e ∈ classifierTable, ¬ IsSubstring e.1 f.Issue) :
    parseError f = f.Issue := by
  simp only [classifierTable, List.mem_cons, List.mem_singleton, forall_eq_or_imp, forall_eq,
    ← Contains_iff, List.not_mem_nil, false_implies, implies_true, and_true] at hnone
  obtain ⟨h1, h2, h3, h4, h5, h6, h7, h8, h9, h10, h11⟩ := hnone
  rw [parseError, if_neg h, if_neg h1, if_neg h2, if_neg h3, if_neg h4, if_neg h5, if_neg h6,
    if_neg h7, if_neg h8, if_neg h9, if_neg h10, if_neg h11]

/-- C8, on a probe failure with an unclassified text. -/
theorem parseError_unmatched_witness :
    parseError { Issue := "unexpected EOF", Method := "http", Service := 1, CreatedAt := 0 } =
      "unexpected EOF" :=
  parseError_unmatched _ (by decide) (by decide)

/-- A first-match lookup returns the text itself or a label of the table. -/
theorem firstMatch_eq_text_or_label (table : List (String × String)) (text : String) :
    firstMatch table text = text ∨ ∃ e ∈ table, firstMatch table text = e.2 := by
  induction table with
  | nil => exact Or.inl rfl
  | cons e rest ih =>
    obtain ⟨pattern, label⟩ := e
    rw [firstMatch_cons]
    by_cases hc : Contains text pattern = true
    · rw [if_pos hc]
      exact Or.inr ⟨(pattern, label), List.mem_cons_self _ _, rfl⟩
    · rw [if_neg hc]
      rcases ih with h | ⟨e, he, h⟩
      · exact Or.inl h
      · exact Or.inr ⟨e, List.mem_cons_of_mem _ he, h⟩

/-- Every label of the classifier is a non-empty string. -/
theorem classifierTable_label_ne_empty : ∀ e ∈ classifierTable, e.2 ≠ "" := by decide

theorem parseError_eq_issue_or_ne_empty (f : Failure) :
    parseError f = f.Issue ∨ parseError f ≠ "" := by
  by_cases hc : f.Method = "checkin"
  · right
    rw [parseError, if_pos hc]
    decide
  · rw [parseError_of_ne_checkin f hc]
    rcases firstMatch_eq_text_or_label classifierTable f.Issue with h | ⟨e, he, h⟩
    · exact Or.inl h
    · exact Or.inr (h ▸ classifierTable_label_ne_empty e he)

/-- C9: a failure with a non-empty diagnostic text is never classified as the empty
string; the classification is empty only for a non-checkin failure with empty text. -/
theorem parseError_ne_empty (f : Failure) :
    (f.Issue ≠ "" → parseError f ≠ "") ∧
      (parseError f = "" → f.Method ≠ "checkin" ∧ f.Issue = "") := by
  have key : parseError f = "" → f.Method ≠ "checkin" ∧ f.Issue = "" := by
    intro he
    have hm : f.Method ≠ "checkin" := by
      intro hc
      rw [parseError, if_pos hc] at he
      exact absurd he (by decide)
    refine ⟨hm, ?_⟩
    rcases parseError_eq_issue_or_ne_empty f with h | h
    · rw [← h, he]
    · exact absurd he h
  exact ⟨fun hne he => hne (key he).2, key⟩

/-- C9, on a probe failure with a one-letter text, and on one with empty text. -/
theorem parseError_ne_empty_witness :
    parseError { Issue := "x", Method := "http", Service := 1, CreatedAt := 0 } ≠ "" ∧
      parseError { Issue := "", Method := "http", Service := 1, CreatedAt := 0 } = "" :=
  ⟨(parseError_ne_empty _).1 (by decide), by decide⟩

/-! ## `DowntimeText` -/

theorem mem_insertRecent {α : Type} (key : α → Int) (x y : α) (l : List α) :
    y ∈ insertRecent key x l ↔ y = x ∨ y ∈ l := by
  induction l with
  | nil => simp [insertRecent]
  | cons z zs ih =>
    unfold insertRecent
    split_ifs
    · simp
    · simp only [List.mem_cons, ih]
      tauto

theorem pairwise_insertRecent {α : Type} (key : α → Int) (x : α) (l : List α)
    (h : l.Pairwise (fun a b => key b ≤ key a)) :
    (insertRecent key x l).Pairwise (fun a b => key b ≤ key a) := by
  induction l with
  | nil => simp [insertRecent]
  | cons z zs ih =>
    rw [List.pairwise_cons] at h
    unfold insertRecent
    split_ifs with hz
    · refine List.Pairwise.cons ?_ (List.Pairwise.cons h.1 h.2)
      intro b hb
      rcases List.mem_cons.mp hb with rfl | hb
      · exact hz
      · exact (h.1 b hb).trans hz
    · refine List.Pairwise.cons ?_ (ih h.2)
      intro b hb
      rcases (mem_insertRecent key x b zs).mp hb with rfl | hb
      · exact (not_le.mp hz).le
      · exact h.1 b hb

theorem foldl_insertRecent {α : Type} (key : α → Int) (rows acc : List α)
    (h : acc.Pairwise (fun a b => key b ≤ key a)) :
    (rows.foldl (fun acc x => insertRecent key x acc) acc).Pairwise
        (fun a b => key b ≤ key a) ∧
      ∀ y, y ∈ rows.foldl (fun acc x => insertRecent key x acc) acc ↔ y ∈ rows ∨ y ∈ acc := by
  induction rows generalizing acc with
  | nil => simpa using h
  | cons r rs ih =>
    obtain ⟨h1, h2⟩ := ih (insertRecent key r acc) (pairwise_insertRecent key r acc h)
    refine ⟨h1, fun y => ?_⟩
    rw [List.foldl_cons, h2, mem_insertRecent, List.mem_cons]
    tauto

/-- The rows ordered by `recentFirst` are the given rows, in order of decreasing
timestamp. -/
theorem recentFirst_spec {α : Type} (key : α → Int) (rows : List α) :
    (recentFirst key rows).Pairwise (fun a b => key b ≤ key a) ∧
      ∀ y, y ∈ recentFirst key rows ↔ y ∈ rows := by
  obtain ⟨h1, h2⟩ := foldl_insertRecent key rows [] List.Pairwise.nil
  exact ⟨h1, fun y => by simpa using h2 y⟩

/-- The head of `recentFirst` is a row with the greatest timestamp. -/
theorem recentFirst_cons {α : Type} (key : α → Int) (rows : List α) (x : α) (rest : List α)
    (h : recentFirst key rows = x :: rest) :
    x ∈ rows ∧ ∀ y ∈ rows, key y ≤ key x := by
  obtain ⟨h1, h2⟩ := recentFirst_spec key rows
  rw [h] at h1 h2
  refine ⟨(h2 x).mp (List.mem_cons_self _ _), fun y hy => ?_⟩
  rcases List.mem_cons.mp ((h2 y).mpr hy) with rfl | hy
  · exact le_rfl
  · exact (List.pairwise_cons.mp h1).1 y hy

/-- C10: `DowntimeText` is the empty string when the service has no (non-checkin)
failure, and otherwise `parseError` of the single most recent one: the one failure
returned by `Last(1)`, whose timestamp is the greatest. -/
theorem DowntimeText_spec (db : Database) (s : Service) :
    (Failures db s = [] → DowntimeText db s = "") ∧
      (Failures db s ≠ [] →
        ∃ f ∈ Failures db s, (∀ g ∈ Failures db s, g.CreatedAt ≤ f.CreatedAt) ∧
          FailureObj.Last (Failures db s) 1 = [f] ∧ DowntimeText db s = parseError f) := by
  constructor
  · intro h
    simp [DowntimeText, FailureObj.Last, recentFirst, h]
  · intro hne
    cases hr : recentFirst Failure.CreatedAt (Failures db s) with
    | nil =>
      exfalso
      obtain ⟨f, hf⟩ := List.exists_mem_of_ne_nil _ hne
      have := ((recentFirst_spec Failure.CreatedAt (Failures db s)).2 f).mpr hf
      rw [hr] at this
      exact List.not_mem_nil _ this
    | cons f rest =>
      obtain ⟨hmem, hmax⟩ := recentFirst_cons Failure.CreatedAt _ f rest hr
      refine ⟨f, hmem, hmax, ?_, ?_⟩
      · simp [FailureObj.Last, hr]
      · simp [DowntimeText, FailureObj.Last, hr]

/-- C10, on a store without failures and on a store whose most recent probe failure of
the service is older than a missed checkin and than a failure of another service. -/
theorem DowntimeText_spec_witness :
    DowntimeText (sampleDb 0 5) sampleService = "" ∧
      DowntimeText mixedDb sampleService = "Domain is offline or not found" :=
  ⟨(DowntimeText_spec (sampleDb 0 5) sampleService).1 (by decide), by decide⟩

/-! ## `Downtime` -/

/-- The first row of `recentFirst`, if any, is a row with the greatest timestamp. -/
theorem take_one_recentFirst {α : Type} (key : α → Int) (rows : List α) :
    (rows = [] ∧ (recentFirst key rows).take 1 = []) ∨
      ∃ x ∈ rows, (∀ y ∈ rows, key y ≤ key x) ∧ (recentFirst key rows).take 1 = [x] := by
  cases hr : recentFirst key rows with
  | nil =>
    left
    constructor
    · by_contra hne
      obtain ⟨y, hy⟩ := List.exists_mem_of_ne_nil _ hne
      have := ((recentFirst_spec key rows).2 y).mpr hy
      rw [hr] at this
      exact List.not_mem_nil _ this
    · rfl
  | cons x rest =>
    right
    obtain ⟨hmem, hmax⟩ := recentFirst_cons key rows x rest hr
    exact ⟨x, hmem, hmax, rfl⟩

theorem Time.Sub_nonneg_iff (t u : Int) : 0 ≤ Time.Sub t u ↔ u ≤ t := by
  unfold Time.Sub
  split_ifs <;> omega

theorem Time.Sub_eq_sub (t u : Int) (h1 : -(2 ^ 63) ≤ t - u) (h2 : t - u ≤ 2 ^ 63 - 1) :
    Time.Sub t u = t - u := by
  unfold Time.Sub
  split_ifs <;> omega

theorem Downtime_of_no_failures (db : Database) (now : Int) (s : Service)
    (h : FailureObj.Last (Failures db s) 1 = []) : Downtime db now s = some 0 := by
  simp [Downtime, h]

theorem Downtime_of_no_hits (db : Database) (now : Int) (s : Service) (f : Failure)
    (hf : FailureObj.Last (Failures db s) 1 = [f]) (hh : HitObj.Last (Hits db s) 1 = []) :
    Downtime db now s = none := by
  simp [Downtime, hf, hh]

theorem Downtime_of_last (db : Database) (now : Int) (s : Service) (f : Failure) (h : Hit)
    (hf : FailureObj.Last (Failures db s) 1 = [f]) (hh : HitObj.Last (Hits db s) 1 = [h]) :
    Downtime db now s = some (Time.Sub f.CreatedAt h.CreatedAt) := by
  simp [Downtime, hf, hh]

/-- `Downtime` fails exactly when the service has a (non-checkin) failure and no hit. -/
theorem Downtime_eq_none_iff (db : Database) (now : Int) (s : Service) :
    Downtime db now s = none ↔ Failures db s ≠ [] ∧ Hits db s = [] := by
  rcases take_one_recentFirst Failure.CreatedAt (Failures db s) with
    ⟨hf0, hf⟩ | ⟨f, -, -, hf⟩
  · rw [Downtime_of_no_failures db now s hf]
    simp [hf0]
  · have hne : Failures db s ≠ [] := by
      intro h0
      rw [h0] at hf
      simp [recentFirst] at hf
    rcases take_one_recentFirst Hit.CreatedAt (Hits db s) with ⟨hh0, hh⟩ | ⟨h, hmem, -, hh⟩
    · rw [Downtime_of_no_hits db now s f hf hh]
      simp [hne, hh0]
    · rw [Downtime_of_last db now s f h hf hh]
      have : Hits db s ≠ [] := List.ne_nil_of_mem hmem
      simp [this]

/-- C11 (as stated, fails): on a store whose most recent hit (instant 9) is later than
its most recent failure (instant 5), `Downtime` returns the negative duration -4. -/
theorem Downtime_negative_after_recovery :
    ∃ d : Int, Downtime recoveredDb 0 sampleService = some d ∧ d < 0 :=
  ⟨-4, by decide, by decide⟩

/-- C11, amended: a duration returned by `Downtime` is non-negative exactly when the
most recent hit is not later than the most recent failure (or there is no failure). -/
theorem Downtime_nonneg_iff (db : Database) (now : Int) (s : Service) (d : Int)
    (hd : Downtime db now s = some d) :
    0 ≤ d ↔
      ∀ f h, FailureObj.Last (Failures db s) 1 = [f] → HitObj.Last (Hits db s) 1 = [h] →
        h.CreatedAt ≤ f.CreatedAt := by
  rcases take_one_recentFirst Failure.CreatedAt (Failures db s) with
    ⟨-, hf⟩ | ⟨f, -, -, hf⟩
  · rw [Downtime_of_no_failures db now s hf] at hd
    have hd0 : d = 0 := (Option.some.inj hd).symm
    constructor
    · intro _ f h hf'
      unfold FailureObj.Last at hf'
      rw [hf] at hf'
      exact absurd hf' (by simp)
    · intro _
      omega
  · rcases take_one_recentFirst Hit.CreatedAt (Hits db s) with ⟨-, hh⟩ | ⟨h, -, -, hh⟩
    · rw [Downtime_of_no_hits db now s f hf hh] at hd
      exact absurd hd (by simp)
    · rw [Downtime_of_last db now s f h hf hh] at hd
      have hd0 : d = Time.Sub f.CreatedAt h.CreatedAt := (Option.some.inj hd).symm
      rw [hd0, Time.Sub_nonneg_iff]
      constructor
      · intro hle f' h' hf' hh'
        unfold FailureObj.Last at hf'
        unfold HitObj.Last at hh'
        rw [hf] at hf'
        rw [hh] at hh'
        rw [← List.head_eq_of_cons_eq hf', ← List.head_eq_of_cons_eq hh']
        exact hle
      · intro hall
        exact hall f h hf hh

/-- C11, amended, on an offline service: hits at instants 3 and 5, failures at 7 and 8. -/
theorem Downtime_nonneg_iff_witness :
    Downtime outageDb 0 sampleService = some 3 ∧
      ((0 : Int) ≤ 3 ↔
        ∀ f h, FailureObj.Last (Failures outageDb sampleService) 1 = [f] →
          HitObj.Last (Hits outageDb sampleService) 1 = [h] → h.CreatedAt ≤ f.CreatedAt) :=
  ⟨by decide, Downtime_nonneg_iff outageDb 0 sampleService 3 (by decide)⟩

/-- C12 (fails on the code): for a service with one failure and no hit, `Downtime`
indexes the empty list of hits and panics. -/
theorem Downtime_panics_without_hits :
    (Failures (sampleDb 1 0) sampleService).length = 1 ∧
      (Hits (sampleDb 1 0) sampleService).length = 0 ∧
      Downtime (sampleDb 1 0) 0 sampleService = none :=
  ⟨by decide, by decide, by decide⟩

/-- C13: `Downtime` returns zero when the service has no (non-checkin) failure, whatever
its hits; with at least one failure and one hit it returns the instant of the most
recent failure minus the instant of the most recent hit (`Time.Sub`, the plain
difference whenever that fits a `Duration`); the current time plays no part. -/
theorem Downtime_spec (db : Database) (now : Int) (s : Service) :
    (Failures db s = [] → Downtime db now s = some 0) ∧
      (Failures db s ≠ [] → Hits db s ≠ [] →
        ∃ f ∈ Failures db s, ∃ h ∈ Hits db s,
          (∀ g ∈ Failures db s, g.CreatedAt ≤ f.CreatedAt) ∧
          (∀ g ∈ Hits db s, g.CreatedAt ≤ h.CreatedAt) ∧
          Downtime db now s = some (Time.Sub f.CreatedAt h.CreatedAt) ∧
          (-(2 ^ 63) ≤ f.CreatedAt - h.CreatedAt → f.CreatedAt - h.CreatedAt ≤ 2 ^ 63 - 1 →
            Downtime db now s = some (f.CreatedAt - h.CreatedAt))) ∧
      ∀ now' : Int, Downtime db now' s = Downtime db now s := by
  refine ⟨fun h0 => ?_, fun hne hhne => ?_, fun now' => ?_⟩
  · exact Downtime_of_no_failures db now s (by simp [FailureObj.Last, recentFirst, h0])
  · rcases take_one_recentFirst Failure.CreatedAt (Failures db s) with
      ⟨hf0, -⟩ | ⟨f, hfm, hfmax, hf⟩
    · exact absurd hf0 hne
    · rcases take_one_recentFirst Hit.CreatedAt (Hits db s) with
        ⟨hh0, -⟩ | ⟨h, hhm, hhmax, hh⟩
      · exact absurd hh0 hhne
      · have hd := Downtime_of_last db now s f h hf hh
        refine ⟨f, hfm, h, hhm, hfmax, hhmax, hd, fun h1 h2 => ?_⟩
        rw [hd, Time.Sub_eq_sub _ _ h1 h2]
  · rcases take_one_recentFirst Failure.CreatedAt (Failures db s) with
      ⟨-, hf⟩ | ⟨f, -, -, hf⟩
    · rw [Downtime_of_no_failures db now s hf, Downtime_of_no_failures db now' s hf]
    · rcases take_one_recentFirst Hit.CreatedAt (Hits db s) with ⟨-, hh⟩ | ⟨h, -, -, hh⟩
      · rw [Downtime_of_no_hits db now s f hf hh, Downtime_of_no_hits db now' s f hf hh]
      · rw [Downtime_of_last db now s f h hf hh, Downtime_of_last db now' s f h hf hh]

/-- C13, on a store with hits only, and on an offline service whose most recent
failure is at instant 8 and most recent hit at instant 5. -/
theorem Downtime_spec_witness :
    Downtime (sampleDb 0 3) 0 sampleService = some 0 ∧
      Downtime outageDb 0 sampleService = some (8 - 5) ∧
      Downtime outageDb 1000 sampleService = Downtime outageDb 0 sampleService :=
  ⟨(Downtime_spec (sampleDb 0 3) 0 sampleService).1 (by decide), by decide,
    (Downtime_spec outageDb 0 sampleService).2.2 1000⟩

/-! ## `UpdateStats` and `OnlineDaysPercent`: repetition and frame -/

/-- `UpdateStats` always returns a record, and that record depends on the store, the
instant and the service identifier only. -/
theorem UpdateStats_congr (db : Database) (now : Int) {s t : Service} (h : s.Id = t.Id) :
    ∃ r, UpdateStats db now s = some r ∧ UpdateStats db now t = some r ∧ r.Id = s.Id := by
  obtain ⟨v, hv⟩ := OnlineSince_total db s (now - 7 * Day)
  obtain ⟨w, hw⟩ := OnlineSince_total db t (now - 7 * Day)
  have hvw : v = w := by
    have := OnlineSince_fst_congr db (now - 7 * Day) h
    rw [hv, hw] at this
    simpa using this
  subst hvw
  refine ⟨_, UpdateStats_eq db now s v _ hv, ?_, rfl⟩
  rw [UpdateStats_eq db now t v _ hw, AvgTime, AvgTime, ← Failures_congr db h,
    ← Hits_congr db h, h]

/-- C14: with the store and `now` fixed, `UpdateStats` returns a record `r` whatever the
record held before (any record with the same identifier gives the same `r`), and
running it again on `r` returns `r`. -/
theorem UpdateStats_idempotent (db : Database) (now : Int) (s : Service) :
    ∃ r, UpdateStats db now s = some r ∧ UpdateStats db now r = some r ∧
      ∀ t : Service, t.Id = s.Id → UpdateStats db now t = some r := by
  obtain ⟨r, hr, -, hid⟩ := UpdateStats_congr db now (s := s) (t := s) rfl
  refine ⟨r, hr, ?_, fun t ht => ?_⟩
  · obtain ⟨r', h1, h2, -⟩ := UpdateStats_congr db now (s := s) (t := r) hid.symm
    rw [hr] at h1
    rw [h2, ← Option.some.inj h1]
  · obtain ⟨r', h1, h2, -⟩ := UpdateStats_congr db now (s := s) (t := t) ht.symm
    rw [hr] at h1
    rw [h2, ← Option.some.inj h1]

/-- C15: two stores with the same hits and the same failures apart from failures whose
method is "checkin" give the same result of `OnlineSince`, because the failures it
counts all have a method other than "checkin" and the identifier of the service. -/
theorem OnlineSince_ignores_checkin (db db' : Database) (s : Service) (ago : Int)
    (hh : db'.hits = db.hits)
    (hf : db'.failures.filter (fun f => decide (f.Method ≠ "checkin")) =
      db.failures.filter (fun f => decide (f.Method ≠ "checkin"))) :
    OnlineSince db' s ago = OnlineSince db s ago ∧
      ∀ f ∈ Failures db s, f.Method ≠ "checkin" ∧ f.Service = s.Id := by
  have hsplit : ∀ d : Database, Failures d s =
      (d.failures.filter (fun f => decide (f.Method ≠ "checkin"))).filter
        (fun f => decide (f.Service = s.Id)) := by
    intro d
    rw [Failures, List.filter_filter]
    congr 1
    funext f
    exact Bool.and_comm _ _
  have hF : Failures db' s = Failures db s := by rw [hsplit db', hsplit db, hf]
  have hH : Hits db' s = Hits db s := by rw [Hits, Hits, hh]
  refine ⟨by simp only [OnlineSince, hF, hH], fun f hmem => ?_⟩
  simpa [Failures] using (List.mem_filter.mp hmem).2

/-- C15, on a store with a missed checkin of the service and the same store without
it. -/
theorem OnlineSince_ignores_checkin_witness :
    OnlineSince { mixedDb with failures :=
        (mixedDb.failures.filter (fun f => decide (f.Method ≠ "checkin"))) }
        sampleService 0 =
      OnlineSince mixedDb sampleService 0 :=
  (OnlineSince_ignores_checkin mixedDb _ sampleService 0 rfl (by decide)).1

/-- C16 (as stated, fails): `OnlineDaysPercent(7)` on a service whose `Online24Hours` is
0 returns 100 and leaves 100 in `Online24Hours`: the record has changed.  Moreover for
106752 days the duration `-24 * days * time.Hour` wraps around in 64 bits: the window
starts in the future and the call returns 100, where the window that starts
`106752 * 24h` before `now` has 3 failures and no hit, hence an uptime of 0. -/
theorem OnlineDaysPercent_changes_record :
    (∃ r, OnlineDaysPercent (sampleDb 0 5) 0 sampleService 7 = some r ∧
      r.2.Online24Hours = 100 ∧ sampleService.Online24Hours = 0 ∧ r.2 ≠ sampleService) ∧
      (OnlineDaysPercent (sampleDb 3 0) 20 sampleService 106752).map Prod.fst = some 100 ∧
      (OnlineSince (sampleDb 3 0) sampleService (20 - 106752 * Day)).map Prod.fst = some 0 :=
  ⟨⟨(100, { sampleService with Online24Hours := 100 }), by decide, by decide, by decide,
    by decide⟩, by decide, by decide⟩

/-- C16, amended: `OnlineDaysPercent(days)` returns what `OnlineSince` computes for the
window that starts `days` days before `now` (for a number of days whose duration fits
64 bits), and leaves every field other than `Online24Hours` unchanged. -/
theorem OnlineDaysPercent_frame (db : Database) (now : Int) (s : Service) (days : Int) :
    ∃ v r, OnlineDaysPercent db now s days = some (v, r) ∧
      r.Id = s.Id ∧ r.Online7Days = s.Online7Days ∧ r.AvgResponse = s.AvgResponse ∧
      r.FailuresLast24Hours = s.FailuresLast24Hours ∧ r.Stats = s.Stats ∧
      (-106751 ≤ days → days ≤ 106751 →
        OnlineSince db s (now - days * Day) = some (v, r)) := by
  obtain ⟨v, hv⟩ := OnlineSince_total db s (now + wrapInt64 (wrapInt64 (-24 * days) * Hour))
  refine ⟨v, _, hv, rfl, rfl, rfl, rfl, rfl, fun h1 h2 => ?_⟩
  have hw : wrapInt64 (wrapInt64 (-24 * days) * Hour) = -(days * Day) := by
    unfold wrapInt64 Day Hour
    omega
  rw [← hv, hw, sub_eq_add_neg]

/-- C16, amended, on a week: the window starts at `now - 7 * Day`. -/
theorem OnlineDaysPercent_frame_witness :
    OnlineSince staleFailureDb sampleService (7 * Day - 7 * Day) =
      OnlineDaysPercent staleFailureDb (7 * Day) sampleService 7 := by
  obtain ⟨v, r, h1, -, -, -, -, -, h2⟩ :=
    OnlineDaysPercent_frame staleFailureDb (7 * Day) sampleService 7
  rw [h1, h2 (by decide) (by decide)]

/-! ## The classifier table: reachability and fixed points -/

theorem firstMatch_pattern : ∀ e ∈ classifierTable, firstMatch classifierTable e.1 = e.2 := by
  decide

theorem firstMatch_label : ∀ e ∈ classifierTable, firstMatch classifierTable e.2 = e.2 := by
  decide

/-- C17: the table has eleven entries, no pattern has an earlier pattern as a substring,
and a non-checkin failure whose text is exactly a pattern of the table is classified
with the label of that entry: no entry is shadowed by an earlier one. -/
theorem classifierTable_reachable :
    classifierTable.length = 11 ∧
      (classifierTable.map Prod.fst).Pairwise (fun p q => ¬ IsSubstring p q) ∧
      ∀ e ∈ classifierTable, ∀ f : Failure, f.Method ≠ "checkin" → f.Issue = e.1 →
        parseError f = e.2 := by
  refine ⟨rfl, by decide, fun e he f hm hi => ?_⟩
  rw [parseError_of_ne_checkin f hm, hi]
  exact firstMatch_pattern e he

/-- C17, on the last entry of the table. -/
theorem classifierTable_reachable_witness :
    parseError { Issue := "Client.Timeout exceeded while reading body", Method := "http",
                 Service := 1, CreatedAt := 0 } = "Timed Out on Response Body" :=
  classifierTable_reachable.2.2
    ("Client.Timeout exceeded while reading body", "Timed Out on Response Body") (by decide)
    _ (by decide) rfl

/-- C18: classifying the classification of a failure, under the same method, returns
that classification again. -/
theorem parseError_idempotent (f : Failure) :
    parseError { f with Issue := parseError f } = parseError f := by
  by_cases hc : f.Method = "checkin"
  · have h1 : parseError f = "Checkin is Offline" := by rw [parseError, if_pos hc]
    rw [h1, parseError, if_pos hc]
  · have h2 : ∀ text : String,
        parseError { f with Issue := text } = firstMatch classifierTable text :=
      fun text => parseError_of_ne_checkin { f with Issue := text } hc
    rw [h2, parseError_of_ne_checkin f hc]
    rcases firstMatch_eq_text_or_label classifierTable f.Issue with h | ⟨e, he, h⟩
    · rw [h, h]
    · rw [h]
      exact firstMatch_label e he

/-! ## Monotonicity of the uptime percentage -/

theorem OnlineSince_eq_uptimeOf (db : Database) (s : Service) (ago : Int) :
    OnlineSince db s ago =
      some (uptimeOf (FailureObj.Since (Failures db s) ago).length
              (HitObj.Since (Hits db s) ago).length,
        { s with Online24Hours :=
            (uptimeOf (FailureObj.Since (Failures db s) ago).length
              (HitObj.Since (Hits db s) ago).length) }) := by
  by_cases hf : (FailureObj.Since (Failures db s) ago).length = 0
  · rw [OnlineSince_of_no_failures db s ago hf, uptimeOf, if_pos hf]
  · by_cases hh : (HitObj.Since (Hits db s) ago).length = 0
    · rw [OnlineSince_of_no_hits db s ago hf hh, uptimeOf, if_neg hf, if_pos hh]
    · rw [OnlineSince_of_counts db s ago hf hh, uptimeOf, if_neg hf, if_neg hh]

theorem uptimeOf_mem_range (f h : ℕ) : 0 ≤ uptimeOf f h ∧ uptimeOf f h ≤ 100 := by
  unfold uptimeOf
  split_ifs with h1 h2
  · exact ⟨by norm_num, le_rfl⟩
  · exact ⟨le_rfl, by norm_num⟩
  · exact stored_mem_range le_rfl (by norm_num)
  · exact stored_mem_range (not_lt.mp ‹_›) (avgOf_le_hundred f h)

/-- The `float64` value of `100 - (f / h) * 100` does not increase with `f`. -/
theorem avgOf_anti_failures {f f' : ℕ} (h : ℕ) (hf : f ≤ f') : avgOf f' h ≤ avgOf f h := by
  have hb : (0 : ℚ) ≤ float64 h := roundNE_nonneg (by norm_num) (Nat.cast_nonneg h)
  have h1 : float64 (f : ℚ) ≤ float64 (f' : ℚ) := float64_mono (by exact_mod_cast hf)
  have h2 := float64_mono (div_le_div_of_nonneg_right h1 hb)
  have h3 : f64Mul (float64 (float64 f / float64 h)) 100 ≤
      f64Mul (float64 (float64 f' / float64 h)) 100 :=
    float64_mono (mul_le_mul_of_nonneg_right h2 (by norm_num))
  exact float64_mono (by linarith)

/-- The `float64` value of `100 - (f / h) * 100` does not decrease with `h`, for
`h ≥ 1`. -/
theorem avgOf_mono_hits (f : ℕ) {h h' : ℕ} (h0 : h ≠ 0) (hh : h ≤ h') :
    avgOf f h ≤ avgOf f h' := by
  have ha : (0 : ℚ) ≤ float64 f := roundNE_nonneg (by norm_num) (Nat.cast_nonneg f)
  have hb : (0 : ℚ) < float64 h := float64_natCast_pos h0
  have h1 : float64 (h : ℚ) ≤ float64 (h' : ℚ) := float64_mono (by exact_mod_cast hh)
  have h2 := float64_mono (div_le_div_of_nonneg_left ha hb h1)
  have h3 : f64Mul (float64 (float64 f / float64 h')) 100 ≤
      f64Mul (float64 (float64 f / float64 h)) 100 :=
    float64_mono (mul_le_mul_of_nonneg_right h2 (by norm_num))
  exact float64_mono (by linarith)

theorem floor_mono {x y : ℚ} (h : x ≤ y) :
    (if x < 0 then 0 else x) ≤ (if y < 0 then 0 else y) := by
  split_ifs <;> linarith

/-- With more failures and no more hits the uptime percentage is not greater. -/
theorem uptimeOf_anti {f f' h h' : ℕ} (hf : f ≤ f') (hh : h' ≤ h) :
    uptimeOf f' h' ≤ uptimeOf f h := by
  by_cases hf0 : f = 0
  · have e : uptimeOf f h = 100 := by rw [uptimeOf, if_pos hf0]
    rw [e]
    exact (uptimeOf_mem_range f' h').2
  · have hf0' : f' ≠ 0 := by omega
    by_cases hh0 : h' = 0
    · have e : uptimeOf f' h' = 0 := by rw [uptimeOf, if_neg hf0', if_pos hh0]
      rw [e]
      exact (uptimeOf_mem_range f h).1
    · have hh0' : h ≠ 0 := by omega
      have e : uptimeOf f h = stored (if avgOf f h < 0 then 0 else avgOf f h) := by
        rw [uptimeOf, if_neg hf0, if_neg hh0']
      have e' : uptimeOf f' h' = stored (if avgOf f' h' < 0 then 0 else avgOf f' h') := by
        rw [uptimeOf, if_neg hf0', if_neg hh0]
      rw [e, e']
      exact stored_mono (floor_mono
        ((avgOf_anti_failures h' hf).trans (avgOf_mono_hits f hh0 hh)))

/-- C19: uptime is monotone in the counts.  A window with at least as many failures and
at most as many hits as another one has an uptime that is not greater; in particular,
for a fixed number of hits the uptime never increases with the number of failures, and
for a fixed number of failures it never decreases with the number of hits. -/
theorem OnlineSince_monotone (db db' : Database) (s s' : Service) (ago ago' : Int)
    (hf : (FailureObj.Since (Failures db s) ago).length ≤
      (FailureObj.Since (Failures db' s') ago').length)
    (hh : (HitObj.Since (Hits db' s') ago').length ≤
      (HitObj.Since (Hits db s) ago).length) :
    ∃ v v' : ℚ, OnlineSince db s ago = some (v, { s with Online24Hours := v }) ∧
      OnlineSince db' s' ago' = some (v', { s' with Online24Hours := v' }) ∧ v' ≤ v :=
  ⟨_, _, OnlineSince_eq_uptimeOf db s ago, OnlineSince_eq_uptimeOf db' s' ago',
    uptimeOf_anti hf hh⟩

/-- C19, on 10 hits with 2 and then 3 failures, and on 2 failures with 10 and then 12
hits. -/
theorem OnlineSince_monotone_witness :
    (∃ v v' : ℚ,
        OnlineSince (sampleDb 2 10) sampleService 0 =
          some (v, { sampleService with Online24Hours := v }) ∧
        OnlineSince (sampleDb 3 10) sampleService 0 =
          some (v', { sampleService with Online24Hours := v' }) ∧ v' ≤ v) ∧
      ∃ v v' : ℚ,
        OnlineSince (sampleDb 2 12) sampleService 0 =
          some (v, { sampleService with Online24Hours := v }) ∧
        OnlineSince (sampleDb 2 10) sampleService 0 =
          some (v', { sampleService with Online24Hours := v' }) ∧ v' ≤ v :=
  ⟨OnlineSince_monotone _ _ _ _ _ _ (by decide) (by decide),
    OnlineSince_monotone _ _ _ _ _ _ (by decide) (by decide)⟩

end Statping
